import Mathlib

/-!
Shallow embedding of the world rule engine of the `rhodes_resonance`
repository (`src/src/world/core.py`), together with theorems settling the
frozen claims about its specification.

Conventions of the embedding:
* Python dicts keyed by strings become association lists (`alookup` /
  `aset` / `aremove`), so that lookups follow `dict.get` semantics with the
  same defaults as the source.
* The single mutable `WORLD` aggregate becomes an explicit `World` value
  threaded through every operation; a Python function that mutates `WORLD`
  becomes a Lean function returning the new `World` next to its result.
* `random.randint` / dice rolls are passed in as explicit oracle arguments,
  so every function is deterministic in its inputs.
* Machine integers are `Int` (Python ints are unbounded, so no wrap-around
  modelling is needed).
-/

namespace RR

/-- Association-list lookup; models Python `dict.get(k)` (first binding wins,
which agrees with dicts since `aset` never duplicates keys). -/
def alookup {α : Type} : List (String × α) → String → Option α
  | [], _ => none
  | (k', v) :: rest, k => if k' = k then some v else alookup rest k

/-- Association-list update; models Python `dict[k] = v`. -/
def aset {α : Type} : List (String × α) → String → α → List (String × α)
  | [], k, v => [(k, v)]
  | (k', v') :: rest, k, v =>
      if k' = k then (k', v) :: rest else (k', v') :: aset rest k v

/-- Association-list removal; models Python `dict.pop(k, None)`. -/
def aremove {α : Type} : List (String × α) → String → List (String × α)
  | [], _ => []
  | (k', v') :: rest, k =>
      if k' = k then aremove rest k else (k', v') :: aremove rest k

@[simp] theorem alookup_aset {α : Type} (m : List (String × α)) (k : String) (v : α) :
    alookup (aset m k v) k = some v := by
  induction m with
  | nil => simp [aset, alookup]
  | cons hd tl ih =>
      obtain ⟨k', v'⟩ := hd
      by_cases h : k' = k <;> simp [aset, alookup, h, ih]

@[simp] theorem alookup_aset_ne {α : Type} (m : List (String × α)) (k k0 : String) (v : α)
    (h : k ≠ k0) : alookup (aset m k v) k0 = alookup m k0 := by
  induction m with
  | nil => simp [aset, alookup, h]
  | cons hd tl ih =>
      obtain ⟨k', v'⟩ := hd
      by_cases hk : k' = k
      · subst hk
        simp [aset, alookup, h]
      · simp [aset, alookup, hk, ih]

/-- ASCII upper-casing of one character; models Python `str.upper()` on the
identifiers the engine upper-cases (non-ASCII characters pass through). -/
def asciiUpper (c : Char) : Char :=
  if 'a' ≤ c ∧ c ≤ 'z' then Char.ofNat (c.toNat - 32) else c

/-- ASCII lower-casing of one character; models Python `str.lower()`. -/
def asciiLower (c : Char) : Char :=
  if 'A' ≤ c ∧ c ≤ 'Z' then Char.ofNat (c.toNat + 32) else c

/-- `s.upper()`. -/
def strUpper (s : String) : String := String.mk (s.data.map asciiUpper)

/-- `s.lower()`. -/
def strLower (s : String) : String := String.mk (s.data.map asciiLower)

/-- `s.replace(" ", "")`. -/
def stripSpaces (s : String) : String := String.mk (s.data.filter (fun c => !(c = ' ')))

/-- `s.strip()` (whitespace at both ends). -/
def pyStrip (s : String) : String :=
  String.mk (((s.data.dropWhile Char.isWhitespace).reverse.dropWhile Char.isWhitespace).reverse)

/-- Python `round(n / 2)` for an integer `n`: banker's rounding on halves
(ties go to the even integer), used by the infection resist target. -/
def halfRoundEven (n : Int) : Int :=
  if n % 2 = 0 then n / 2
  else
    let k := Int.fdiv n 2
    if k % 2 = 0 then k else k + 1

/-- `DYING_TURNS_DEFAULT` from `core.py`. -/
def DYING_TURNS_DEFAULT : Int := 3

/-- `DEFAULT_REACH_STEPS` from `core.py`. -/
def DEFAULT_REACH_STEPS : Int := 1

-- ---------------------------------------------------------------------------
-- Data model (mirrors the `World` dataclass and the per-character dicts)
-- ---------------------------------------------------------------------------

/-- One entry of the unified status table (`_statuses_for`); the free-form
`data` payload is omitted because no engine code reads it. -/
structure StatusEntry where
  remaining : Option Int := none
  kind : String := "control"
  source : Option String := none
  deriving Repr, DecidableEq

/-- `coc.terra.arts` sub-dict (only the keys the engine reads). -/
structure ArtsBlock where
  resist : Option Int := none
  affinity : Option Int := none
  deriving Repr, DecidableEq

/-- `coc.terra.protection` sub-dict; reads default missing keys to 0. -/
structure Protection where
  physicalArmor : Int := 0
  artsBarrier : Int := 0
  deriving Repr, DecidableEq

/-- `coc.terra.infection` sub-dict; reads default missing keys to 0. -/
structure Infection where
  stage : Int := 0
  stress : Int := 0
  crystalDensity : Int := 0
  severeFlareCount : Int := 0
  overchargeStep : Int := 0
  deriving Repr, DecidableEq

/-- `coc.terra` sub-dict. -/
structure Terra where
  arts : ArtsBlock := {}
  protection : Protection := {}
  infection : Option Infection := none
  deriving Repr, DecidableEq

/-- The character's `coc` block.  `derived*` fields are write-mostly caches
kept for fidelity of `recompute_coc_derived`. -/
structure Coc where
  characteristics : List (String × Int) := []
  skills : List (String × Int) := []
  derivedHp : Option Int := none
  derivedSan : Option Int := none
  derivedMp : Option Int := none
  terra : Terra := {}
  deriving Repr, DecidableEq

/-- A character sheet (`WORLD.characters[name]`).  Optional fields model
dict keys that may be absent where the code's `get` default differs from a
natural zero. -/
structure CharSheet where
  hp : Int := 0
  maxHp : Int := 0
  dyingTurnsLeft : Option Int := none
  injuryId : Int := 0
  firstAidAppliedOn : Int := -1
  mp : Option Int := none
  maxMp : Option Int := none
  coc : Option Coc := none
  deriving Repr, DecidableEq

/-- Per-round turn tokens (`WORLD.turn_state[name]`); a missing entry reads
exactly like this default record (`get` defaults in the source). -/
structure TurnState where
  actionUsed : Bool := false
  bonusUsed : Bool := false
  reactionAvailable : Bool := true
  deriving Repr, DecidableEq

/-- A weapon definition; `Option` fields model possibly-missing dict keys
(`attack_with_weapon` errors out when the required ones are absent). -/
structure WeaponDef where
  reachSteps : Option Int := none
  skill : Option String := none
  defenseSkill : Option String := none
  damage : Option String := none
  damageType : Option String := none
  deriving Repr, DecidableEq

/-- An Originium-Art definition, with exactly the read-out defaults used by
`cast_arts` (missing `damage`/`heal`/`control.effect` read as `""`). -/
structure ArtDef where
  castSkill : String := ""
  resist : String := ""
  rangeSteps : Int := 6
  damageType : String := "arts"
  damage : String := ""
  heal : String := ""
  controlEffect : String := ""
  controlDuration : String := ""
  tags : List String := []
  mpCost : Int := 0
  mpVariable : Bool := false
  mpMax : Int := 0
  deriving Repr, DecidableEq

/-- A frozen ending verdict (`WORLD.ending_state`). -/
structure EndingState where
  ended : Bool := false
  endingId : Option String := none
  label : Option String := none
  outcome : Option String := none
  reasons : List String := []
  timeMin : Int := 0
  deriving Repr, DecidableEq

/-- A when-clause condition tree for ending rules (`_eval_when`'s input,
post `_normalize_endings_list`).  Leaves carry the already-coerced payloads;
`Option Int` models values `_parse_time_to_min` / `int(...)` may fail on. -/
inductive Cond where
  | allOf (xs : List Cond)
  | anyOf (xs : List Cond)
  | negOf (c : Cond)
  | objectives (names : List String) (require status : String)
  | timeBefore (t : Option Int)
  | timeAtLeast (t : Option Int)
  | actorsAlive (names : List String) (require : String)
  | actorsDead (names : List String) (require : String)
  | participantsAliveAtLeast (n : Option Int)
  | participantsAliveAtMost (n : Option Int)
  | hostilesGate (want : Bool) (threshold : Option Int)
  | marksContainsStr (s : String)
  | marksContainsAny (xs : List String)
  | tensionAtLeast (n : Option Int)
  | tensionAtMost (n : Option Int)
  | locationIsStr (s : String)
  | locationIsAny (xs : List String)
  | unknown

/-- A normalized ending rule (`_normalize_endings_list` output). -/
structure EndingRule where
  id : Option String := none
  label : Option String := none
  outcome : Option String := none
  priority : Int := 0
  «when» : Option Cond := none

/-- The world aggregate (the fields of the `World` dataclass the claims
touch; the remaining fields are never read by the embedded operations). -/
structure World where
  version : Int := 0
  timeMin : Int := 480
  relations : List ((String × String) × Int) := []
  inventory : List (String × List (String × Int)) := []
  characters : List (String × CharSheet) := []
  positions : List (String × (Int × Int)) := []
  location : String := ""
  objectives : List String := []
  objectiveStatus : List (String × String) := []
  tension : Int := 1
  marks : List String := []
  turnState : List (String × TurnState) := []
  cover : List (String × String) := []
  conditions : List (String × List (String × StatusEntry)) := []
  weaponDefs : List (String × WeaponDef) := []
  artsDefs : List (String × ArtDef) := []
  participants : List String := []
  guardians : List (String × List String) := []
  sceneOf : List (String × String) := []
  endingsDefs : List EndingRule := []
  endingState : Option EndingState := none

/-- `World._touch`: bump the monotone version counter. -/
def touch (w : World) : World := { w with version := w.version + 1 }

/-- Read a character sheet; `characters.get(nm, {})` (all reads default as in
the empty dict). -/
def charOf (w : World) (nm : String) : CharSheet :=
  (alookup w.characters nm).getD {}

/-- Write a character sheet back (`WORLD.characters[nm] = st`). -/
def setChar (w : World) (nm : String) (st : CharSheet) : World :=
  { w with characters := aset w.characters nm st }

/-- Read a turn-state record; a missing entry reads as the defaults. -/
def turnOf (w : World) (nm : String) : TurnState :=
  (alookup w.turnState nm).getD {}

def setTurn (w : World) (nm : String) (ts : TurnState) : World :=
  { w with turnState := aset w.turnState nm ts }

/-- The status table of one character (`_statuses_for`). -/
def statusesOf (w : World) (nm : String) : List (String × StatusEntry) :=
  (alookup w.conditions nm).getD []

/-- `add_status` (no version bump in the source). -/
def add_status (w : World) (nm state : String) (durationRounds : Option Int)
    (kind : String) (source : Option String) : World :=
  let entry : StatusEntry := { remaining := durationRounds, kind := kind, source := source }
  let sts := aset (statusesOf w nm) state entry
  { w with conditions := aset w.conditions nm sts }

/-- `remove_status` (no version bump in the source). -/
def remove_status (w : World) (nm state : String) : World :=
  { w with conditions := aset w.conditions nm (aremove (statusesOf w nm) state) }

/-- `has_status`. -/
def has_status (w : World) (nm state : String) : Bool :=
  (alookup (statusesOf w nm) state).isSome

/-- `_is_dying`: the presence of `dying_turns_left` is the dying flag. -/
def isDying (w : World) (nm : String) : Bool :=
  (charOf w nm).dyingTurnsLeft.isSome

/-- `_is_alive` (hp>0; a dying character has hp 0 so it is not alive).  The
missing-sheet "assume alive" fallback of the source resolves to `hp = 0` here
because a missing sheet reads as the empty dict, whose `get("hp", 1)` default
only fires when the key is absent; the embedding keeps the same default. -/
def isAliveGuard (w : World) (nm : String) : Bool :=
  match alookup w.characters nm with
  | none => 1 > 0
  | some st => st.hp > 0

-- ---------------------------------------------------------------------------
-- Damage / dying / death (claims C1, C10)
-- ---------------------------------------------------------------------------

/-- `_enter_dying`: HP pinned to 0, countdown set, system `dying` status. -/
def enterDying (w : World) (nm : String) (turns : Int) : World :=
  let st := charOf w nm
  let turnsLeft := max 0 turns
  let st := { st with hp := 0, dyingTurnsLeft := some turnsLeft }
  let w := setChar w nm st
  let w := add_status w nm "dying" (some turnsLeft) "system" none
  touch w

/-- `_die`: HP 0, dying bookkeeping cleared, permanent system `dead` status. -/
def die (w : World) (nm : String) : World :=
  let st := charOf w nm
  let st := { st with hp := 0, dyingTurnsLeft := none }
  let w := setChar w nm st
  let w := remove_status w nm "dying"
  let w := add_status w nm "dead" none "system" none
  touch w

/-- The result flags `damage` reports next to the new world. -/
structure DamageResult where
  world : World
  dead : Bool
  dying : Bool

/-- `damage(name, amount)`: clamp the amount at 0; bump the injury id on a
positive amount; a hit while already dying kills immediately; otherwise apply
the damage and enter dying when hp falls to 0 or below. -/
def damage (w : World) (nm : String) (amount : Int) : DamageResult :=
  let amt := max 0 amount
  let st := charOf w nm
  let st := if amt > 0 then { st with injuryId := st.injuryId + 1 } else st
  let w := setChar w nm st
  let hpBefore := st.hp
  if st.dyingTurnsLeft.isSome then
    { world := die w nm, dead := true, dying := false }
  else
    let st := { st with hp := max 0 (hpBefore - amt) }
    let w := setChar w nm st
    if st.hp ≤ 0 then
      { world := enterDying w nm DYING_TURNS_DEFAULT, dead := true, dying := true }
    else
      { world := touch w, dead := false, dying := false }

/-- `heal(name, amount)`: clamp at max hp (or keep hp when `max_hp ≤ 0`);
clear the dying state when healed above 0.  The source never bumps the
version counter here. -/
def heal (w : World) (nm : String) (amount : Int) : World :=
  let amt := max 0 amount
  let st := charOf w nm
  let maxHp := st.maxHp
  let st := { st with hp := min (if maxHp > 0 then maxHp else st.hp) (st.hp + amt) }
  let w := setChar w nm st
  if st.hp > 0 ∧ st.dyingTurnsLeft.isSome then
    let st := { st with dyingTurnsLeft := none }
    let w := setChar w nm st
    remove_status w nm "dying"
  else
    w

/-- `spend_mp`: `(ok, world)`; fails (only) with `mp_insufficient` when the
positive amount exceeds the current MP. -/
def spend_mp (w : World) (nm : String) (amount : Int) : Bool × World :=
  let amt := max 0 amount
  let st := charOf w nm
  let cur := st.mp.getD 0
  if amt ≤ 0 then (true, w)
  else if cur < amt then (false, w)
  else (true, setChar w nm { st with mp := some (cur - amt) })

-- ---------------------------------------------------------------------------
-- Skill values and percentile checks
-- ---------------------------------------------------------------------------

/-- Read an (upper-cased) characteristic map entry: models the
`{k.upper(): int(v) for ...}` comprehension (last duplicate wins) followed by
`.get(key, default)`. -/
def chGet (ch : List (String × Int)) (key : String) (dflt : Int) : Int :=
  match (ch.filterMap fun p => if strUpper p.1 = key then some p.2 else none).getLast? with
  | some v => v
  | none => dflt

/-- Python `s.title()` (restricted to the ASCII identifiers used as skill
names): the first letter after a non-letter is upper-cased, the rest of each
word lower-cased. -/
def pyTitle (s : String) : String :=
  let rec go : Bool → List Char → List Char
    | _, [] => []
    | prevAlpha, c :: cs =>
        (if prevAlpha then asciiLower c else asciiUpper c) :: go c.isAlpha cs
  String.mk (go false s.toList)

/-- Python truthiness-based `a or b` on optional ints (`0`/`None` falsy). -/
def orFalsy (a b : Option Int) : Option Int :=
  match a with
  | some x => if x ≠ 0 then some x else b
  | none => b

/-- The hard-coded `defaults` table at the end of `_coc_skill_value`
(`Dodge` is derived from the sheet's DEX). -/
def skillDefault (ch : List (String × Int)) (skill : String) : Int :=
  if skill = "Stealth" then 20
  else if skill = "Perception" then 25
  else if skill = "Dodge" then max 1 (chGet ch "DEX" 50 / 2)
  else if skill = "Arts_Resist" then 40
  else if skill = "FirstAid" then 30
  else if skill = "Medicine" then 5
  else if skill = "MeleeWeapons" then 25
  else if skill = "RangedWeapons" then 25
  else if skill = "Fighting_Brawl" then 25
  else if skill = "Fighting_Blade" then 30
  else if skill = "Fighting_DualBlade" then 25
  else if skill = "Fighting_Polearm" then 30
  else if skill = "Fighting_Blunt" then 25
  else if skill = "Fighting_Shield" then 20
  else if skill = "Firearms_Handgun" then 25
  else if skill = "Firearms_Rifle_Crossbow" then 30
  else if skill = "Firearms_Shotgun" then 25
  else if skill = "Heavy_Weapons" then 20
  else if skill = "Throwables_Explosives" then 30
  else if skill = "Arts_Offense" then 40
  else if skill = "Arts_Control" then 40
  else 25

/-- `_coc_skill_value`: characteristic passthrough, explicit skills with the
`or`-chained alias lookup, then the defaults table. -/
def cocSkillValue (w : World) (nm skill : String) : Int :=
  let coc := (charOf w nm).coc.getD {}
  if strUpper skill = "STR" ∨ strUpper skill = "DEX" ∨ strUpper skill = "CON" ∨
     strUpper skill = "INT" ∨ strUpper skill = "POW" ∨ strUpper skill = "APP" ∨
     strUpper skill = "EDU" ∨ strUpper skill = "SIZ" ∨ strUpper skill = "LUCK" then
    chGet coc.characteristics (strUpper skill) 50
  else
    let v := orFalsy (alookup coc.skills skill)
      (orFalsy (alookup coc.skills (pyTitle skill)) (alookup coc.skills (strLower skill)))
    match v with
    | some x => max 0 x
    | none => skillDefault coc.characteristics skill

/-- The outcome record of one percentile roll (`skill_check_coc` metadata). -/
structure CheckResult where
  roll : Int
  target : Int
  success : Bool
  level : String
  deriving Repr, DecidableEq

/-- The threshold logic of `skill_check_coc` (and the identical inline copy in
`apply_exposure`): `t = max(1, target)`, extreme `≤ max(1, t // 5)`, hard
`≤ max(1, t // 2)`, regular `≤ t`. -/
def skillCheck (target roll : Int) : CheckResult :=
  let t := max 1 target
  let hard := max 1 (t / 2)
  let extreme := max 1 (t / 5)
  if roll ≤ extreme then { roll := roll, target := t, success := true, level := "extreme" }
  else if roll ≤ hard then { roll := roll, target := t, success := true, level := "hard" }
  else if roll ≤ t then { roll := roll, target := t, success := true, level := "regular" }
  else { roll := roll, target := t, success := false, level := "fail" }

/-- `skill_check_coc` with the d100 roll passed as an oracle. -/
def skill_check_coc (w : World) (nm skill : String) (value : Option Int) (roll : Int) :
    CheckResult :=
  let target := match value with
    | some v => v
    | none => cocSkillValue w nm skill
  skillCheck target roll

/-- Success-level ranking used by `contest` (`extreme 3, hard 2, regular 1,
fail 0`). -/
def levelRank (level : String) : Int :=
  if level = "extreme" then 3
  else if level = "hard" then 2
  else if level = "regular" then 1
  else 0

/-- `contest(a, a_skill, b, b_skill)` with the two d100 rolls as oracles:
dying short-circuits, then higher success tier wins, ties by lower roll,
exact ties favor the defender `b`. -/
def contest (w : World) (a aSkill b bSkill : String) (ra rb : Int) : String :=
  if isDying w a ∧ ¬ isDying w b then b
  else if isDying w b ∧ ¬ isDying w a then a
  else if isDying w a ∧ isDying w b then b
  else
    let am := skill_check_coc w a aSkill none ra
    let bm := skill_check_coc w b bSkill none rb
    let la := levelRank am.level
    let lb := levelRank bm.level
    if la ≠ lb then (if la > lb then a else b)
    else if am.roll ≠ bm.roll then (if am.roll < bm.roll then a else b)
    else b

-- ---------------------------------------------------------------------------
-- Distance, turn tokens, guard interception (claims C3, C4)
-- ---------------------------------------------------------------------------

/-- `_grid_distance`: Manhattan steps. -/
def gridDistance (a b : Int × Int) : Int :=
  |a.1 - b.1| + |a.2 - b.2|

/-- `get_distance_steps_between`: `none` across scenes or when a position is
missing. -/
def getDistanceStepsBetween (w : World) (na nb : String) : Option Int :=
  let sa := alookup w.sceneOf na
  let sb := alookup w.sceneOf nb
  if sa.isSome ∧ sb.isSome ∧ sa ≠ sb then none
  else
    match alookup w.positions na, alookup w.positions nb with
    | some pa, some pb => some (gridDistance pa pb)
    | _, _ => none

/-- `use_action(name, kind)`: `(ok, world)`.  A failure (`resource_spent`)
leaves the tokens untouched; success consumes the token and bumps the
version. -/
def use_action (w : World) (nm kind : String) : Bool × World :=
  let st := turnOf w nm
  if kind = "action" then
    if st.actionUsed then (false, w)
    else (true, touch (setTurn w nm { st with actionUsed := true }))
  else if kind = "bonus" then
    if st.bonusUsed then (false, w)
    else (true, touch (setTurn w nm { st with bonusUsed := true }))
  else if kind = "reaction" then
    if ¬ st.reactionAvailable then (false, w)
    else (true, touch (setTurn w nm { st with reactionAvailable := false }))
  else (false, w)

/-- One guard candidate as built by `_resolve_guard_interception`:
`(distance attacker→guardian, registration index, guardian)`. -/
abbrev GuardCand := Int × Nat × String

/-- The candidate filter of `_resolve_guard_interception`: alive, within 1
step of the protectee, reaction available, and within the attacker's reach. -/
def guardCandidates (w : World) (attacker protectee : String) (reach : Int)
    (gs : List String) : List GuardCand :=
  (gs.enum).filterMap fun p =>
    let idx := p.1
    let g := p.2
    if ¬ isAliveGuard w g then none
    else
      match getDistanceStepsBetween w g protectee with
      | none => none
      | some dgp =>
          if dgp > 1 then none
          else if ¬ (turnOf w g).reactionAvailable then none
          else
            match getDistanceStepsBetween w attacker g with
            | none => none
            | some dag => if dag > reach then none else some (dag, idx, g)

/-- The sort key comparison of `cand.sort(key=lambda t: (t[0], t[1]))`. -/
def candLE (x y : GuardCand) : Prop :=
  x.1 < y.1 ∨ (x.1 = y.1 ∧ x.2.1 ≤ y.2.1)

instance : DecidableRel candLE := fun x y => by
  unfold candLE; infer_instance

instance : IsTotal GuardCand candLE where
  total x y := by
    unfold candLE
    rcases lt_trichotomy x.1 y.1 with h | h | h
    · exact Or.inl (Or.inl h)
    · rcases le_total x.2.1 y.2.1 with h2 | h2
      · exact Or.inl (Or.inr ⟨h, h2⟩)
      · exact Or.inr (Or.inr ⟨h.symm, h2⟩)
    · exact Or.inr (Or.inl h)

instance : IsTrans GuardCand candLE where
  trans x y z hxy hyz := by
    unfold candLE at *
    rcases hxy with h | ⟨he, hi⟩
    · rcases hyz with h2 | ⟨he2, _⟩
      · exact Or.inl (h.trans h2)
      · exact Or.inl (he2 ▸ h)
    · rcases hyz with h2 | ⟨he2, hi2⟩
      · exact Or.inl (he ▸ h2)
      · exact Or.inr ⟨he.trans he2, hi.trans hi2⟩

/-- The reaction-spending loop of `_resolve_guard_interception`: walk the
sorted candidates, spend the first spendable reaction. -/
def spendFirstReaction (w : World) : List GuardCand → Option String × World
  | [] => (none, w)
  | c :: rest =>
      let g := c.2.2
      let r := use_action w g "reaction"
      if r.1 then (some g, r.2) else spendFirstReaction r.2 rest

/-- `_resolve_guard_interception(attacker, defender, reach_steps)`: returns
`(final_defender, chosen_guardian?, world)`. -/
def resolveGuardInterception (w : World) (attacker defender : String) (reach : Int) :
    String × Option String × World :=
  let gs := (alookup w.guardians defender).getD []
  if gs = [] then (defender, none, w)
  else
    let cand := guardCandidates w attacker defender reach gs
    if cand = [] then (defender, none, w)
    else
      let sorted := cand.insertionSort candLE
      match spendFirstReaction w sorted with
      | (none, w2) => (defender, none, w2)
      | (some g, w2) => (g, some g, w2)

-- ---------------------------------------------------------------------------
-- Action blocking and the attack pipeline (claim C4)
-- ---------------------------------------------------------------------------

/-- The action set gated by the dying / hp≤0 system rules in
`_blocked_action`. -/
def systemGatedAction (act : String) : Bool :=
  act = "move" ∨ act = "attack" ∨ act = "cast" ∨ act = "dash" ∨
  act = "disengage" ∨ act = "action"

/-- `CONTROL_STATUS_RULES`: the block-set of a (lower-cased) control status
name, `none` when the status has no rule. -/
def controlBlocks (state : String) : Option (List String) :=
  if state = "stunned" ∨ state = "paralyzed" ∨ state = "sleep" ∨ state = "frozen" then
    some ["all"]
  else if state = "silenced" then some ["cast"]
  else if state = "rooted" ∨ state = "immobilized" then some ["move"]
  else if state = "restrained" then some ["move", "attack"]
  else none

/-- `_blocked_action(name, action)`: system gating (dying, hp≤0), then the
control-status block sets. -/
def blockedAction (w : World) (nm act : String) : Bool :=
  let st := charOf w nm
  if st.dyingTurnsLeft.isSome ∧ systemGatedAction act then true
  else if st.hp ≤ 0 ∧ systemGatedAction act then true
  else
    (statusesOf w nm).any fun p =>
      match controlBlocks (strLower p.1) with
      | none => false
      | some blocks =>
          blocks.contains "all" ∨ blocks.contains act ∨
            (act ≠ "move" ∧ blocks.contains "action")

/-- `_attack_run_check_or_contest` with the two d100 rolls as oracles; the
source's `defender_value` parameter is always `None` at both call sites and
is therefore dropped here. -/
def attackRunCheckOrContest (w : World) (attacker defender skillName defenseSkillName : String)
    (attackerValue : Option Int) (ra rb : Int) : Bool :=
  if isDying w defender then
    (skill_check_coc w attacker skillName attackerValue ra).success
  else if attackerValue.isNone then
    contest w attacker skillName defender defenseSkillName ra rb = attacker
  else if isDying w attacker ∧ ¬ isDying w defender then false
  else
    let am := skill_check_coc w attacker skillName attackerValue ra
    let bm := skill_check_coc w defender defenseSkillName none rb
    let la := levelRank am.level
    let lb := levelRank bm.level
    let winner :=
      if la ≠ lb then (if la > lb then attacker else defender)
      else if am.roll ≠ bm.roll then (if am.roll < bm.roll then attacker else defender)
      else defender
    winner = attacker

/-- `_attack_apply_damage`, with the damage-dice total as an oracle: fixed
armor/barrier mitigation by damage category (floored at 0), then `damage`. -/
def attackApplyDamage (w : World) (defender : String) (dmgTotal : Int) (damageType : String)
    (defenderSheet : CharSheet) : World × Int :=
  let prot := (defenderSheet.coc.getD {}).terra.protection
  let reduced :=
    if strLower damageType = "arts" then max 0 prot.artsBarrier
    else max 0 prot.physicalArmor
  let final := max 0 (dmgTotal - reduced)
  ((damage w defender final).world, final)

/-- The outcome record of `attack_with_weapon` (the metadata fields the
claims consult). -/
structure AttackOutcome where
  world : World
  ok : Bool
  errorType : Option String := none
  hit : Bool := false
  guard : Option String := none
  reachOk : Bool := false
  distanceBefore : Option Int := none

/-- `reach_steps = max(1, int(w.get("reach_steps", DEFAULT_REACH_STEPS)))`. -/
def attackReach (w : World) (weapon : String) : Int :=
  max 1 (((alookup w.weaponDefs weapon).getD {}).reachSteps.getD DEFAULT_REACH_STEPS)

/-- `attack_with_weapon(attacker, defender, weapon)` with the two check rolls
and the damage-dice total as oracles.  Pipeline order as in the source:
participants gate, status gate, weapon-def extraction, ownership gate, guard
interception, reach gate, opposed check, damage, final version bump. -/
def attack_with_weapon (w : World) (attacker defender weapon : String)
    (ra rb dmgTotal : Int) : AttackOutcome :=
  if w.participants ≠ [] ∧
     (¬ w.participants.contains attacker ∨ ¬ w.participants.contains defender) then
    { world := w, ok := false, errorType := some "not_participant" }
  else if blockedAction w attacker "attack" then
    { world := w, ok := false, errorType := some "attacker_unable" }
  else
    let wd := (alookup w.weaponDefs weapon).getD {}
    let reach := attackReach w weapon
    match wd.defenseSkill, wd.damage with
    | some defSkill, some _ =>
        let dtype := strLower (wd.damageType.getD "physical")
        let bag := (alookup w.inventory attacker).getD []
        if (alookup bag weapon).getD 0 ≤ 0 then
          { world := w, ok := false, errorType := some "weapon_not_owned" }
        else
          let gi := resolveGuardInterception w attacker defender reach
          let fd := gi.1
          let gmeta := gi.2.1
          let w1 := gi.2.2
          let dfd := charOf w1 fd
          match getDistanceStepsBetween w1 attacker fd with
          | none =>
              { world := w1, ok := false, errorType := some "out_of_reach", guard := gmeta }
          | some d =>
              if d > reach then
                { world := w1, ok := false, errorType := some "out_of_reach",
                  guard := gmeta, distanceBefore := some d }
              else
                match wd.skill with
                | none =>
                    { world := w1, ok := false, errorType := some "weapon_def_invalid",
                      guard := gmeta }
                | some skillName =>
                    let success :=
                      attackRunCheckOrContest w1 attacker fd skillName defSkill none ra rb
                    let w2 :=
                      if success then (attackApplyDamage w1 fd dmgTotal dtype dfd).1 else w1
                    { world := touch w2, ok := true, hit := success, guard := gmeta,
                      reachOk := true, distanceBefore := some d }
    | _, _ =>
        { world := w, ok := false, errorType := some "weapon_def_invalid" }

-- ---------------------------------------------------------------------------
-- Infection / exposure subsystem (claims C5, C7)
-- ---------------------------------------------------------------------------

/-- `_infection_stage_floor`. -/
def infectionStageFloor (stage : Int) : Int :=
  if stage ≤ 0 then 0
  else if stage = 1 then 20
  else if stage = 2 then 50
  else 80

/-- The normalization `_ensure_infection_block` applies to the stored block:
stage clamped to [0,3], nonnegative stress and density, stress raised to the
stage floor. -/
def normalizeInfection (inf : Infection) : Infection :=
  let stage := max 0 (min 3 inf.stage)
  let stress := max 0 inf.stress
  let cd := max 0 inf.crystalDensity
  let fl := infectionStageFloor stage
  let stress := if stress < fl then fl else stress
  { inf with stage := stage, stress := stress, crystalDensity := cd }

/-- Write the infection block back through `coc.terra.infection`
(the `setdefault` chain creates missing levels). -/
def setInfection (w : World) (nm : String) (inf : Infection) : World :=
  let st := charOf w nm
  let coc := st.coc.getD {}
  let coc := { coc with terra := { coc.terra with infection := some inf } }
  setChar w nm { st with coc := some coc }

/-- `_ensure_infection_block(name)`: returns the normalized block and the
world with it persisted (creating the character / coc levels if needed). -/
def ensureInfectionBlock (w : World) (nm : String) : Infection × World :=
  let st := charOf w nm
  let inf := normalizeInfection ((st.coc.getD {}).terra.infection.getD {})
  (inf, setInfection w nm inf)

/-- The `{0: 0, 1: 10, 2: 20, 3: 30}.get(stage, 0)` stage penalty table. -/
def stagePenaltyFor (stage : Int) : Int :=
  if stage = 0 then 0
  else if stage = 1 then 10
  else if stage = 2 then 20
  else if stage = 3 then 30
  else 0

/-- `_infection_resist_target(name, bonus)`: the percentile target of the
infection resistance check, clamped below at 1.  (The float expression
`int(round((CON + POW) / 2.0))` is `halfRoundEven` exactly.) -/
def infectionResistTarget (w : World) (nm : String) (bonus : Int) : Int × World :=
  let st := charOf w nm
  let coc := st.coc.getD {}
  let conV := chGet coc.characteristics "CON" 50
  let powV := chGet coc.characteristics "POW" 50
  let halfSum := halfRoundEven (conV + powV)
  let sheet0 := coc.terra.arts.resist.getD 0
  let sheet := if sheet0 ≤ 0 then cocSkillValue w nm "Arts_Resist" else sheet0
  let base := max sheet halfSum
  let p := ensureInfectionBlock w nm
  (max 1 (base + bonus - stagePenaltyFor p.1.stage), p.2)

/-- `_coc7_hp_max`. -/
def coc7HpMax (con siz : Int) : Int :=
  max 1 ((max 0 con + max 0 siz) / 10)

/-- The `{k.upper(): int(v) for ...}` comprehension as a map rebuild
(preserving the last value of colliding upper-cased keys). -/
def upperChars (l : List (String × Int)) : List (String × Int) :=
  l.foldl (fun acc p => aset acc (strUpper p.1) p.2) []

/-- `recompute_coc_derived(name)`: recompute HP max from CON/SIZ, keep the
current damage ratio (the float ratio computation is modelled by the exact
rational floor), sync the MP cap from POW.  No-op without a `coc` block. -/
def recompute_coc_derived (w : World) (nm : String) : World :=
  let st := charOf w nm
  match st.coc with
  | none => w
  | some coc =>
      let ch := coc.characteristics
      let hpMax := coc7HpMax (chGet ch "CON" 0) (chGet ch "SIZ" 0)
      let oldMax := st.maxHp
      let oldHp := st.hp
      let newHp :=
        if oldMax > 0 then min hpMax (max 0 (Int.fdiv (hpMax * max 0 oldHp) oldMax))
        else min hpMax (max 0 hpMax)
      let powV := chGet ch "POW" 0
      let coc :=
        if powV > 0 then
          { coc with derivedHp := some hpMax, derivedSan := some powV,
                     derivedMp := some (max 0 (Int.fdiv powV 5)) }
        else { coc with derivedHp := some hpMax }
      let mpCap := max 0 (Int.fdiv powV 5)
      let curMp := st.mp.getD mpCap
      let st := { st with maxHp := hpMax, hp := newHp, coc := some coc,
                          maxMp := some mpCap, mp := some (max 0 (min mpCap curMp)) }
      touch (setChar w nm st)

/-- `advance_infection_stage(name, choice)`: `(advanced, world)`.  Bumps the
stage (max 3) and crystal density, floors the stress at the new stage floor,
applies the chosen permanent penalty, recomputes derived values. -/
def advance_infection_stage (w : World) (nm choice : String) : Bool × World :=
  let p := ensureInfectionBlock w nm
  let inf := p.1
  let w := p.2
  if inf.stage ≥ 3 then (false, w)
  else
    let newStage := min 3 (inf.stage + 1)
    let fl := infectionStageFloor newStage
    let curStress := if inf.stress < fl then fl else inf.stress
    let inf := { inf with stage := newStage, crystalDensity := inf.crystalDensity + 1,
                          stress := curStress }
    let st := charOf w nm
    let coc := st.coc.getD {}
    let chU := upperChars coc.characteristics
    let arts := coc.terra.arts
    let choiceN := if choice = "con" ∨ choice = "resist" ∨ choice = "affinity" then choice else "con"
    let upd :=
      if choiceN = "con" then
        let oldCon := (alookup chU "CON").getD 50
        (aset chU "CON" (max 1 (oldCon - 5)), arts, inf)
      else if choiceN = "resist" then
        let oldRes := arts.resist.getD 40
        (chU, { arts with resist := some (max 0 (oldRes - 10)) }, inf)
      else
        let oldAff := arts.affinity.getD 0
        (chU, { arts with affinity := some (oldAff + 5) },
         { inf with overchargeStep := inf.overchargeStep + 1 })
    let coc := { coc with characteristics := upd.1,
                          terra := { coc.terra with arts := upd.2.1, infection := some upd.2.2 } }
    let w := setChar w nm { st with coc := some coc }
    let w := recompute_coc_derived w nm
    (true, touch w)

/-- The dice-roll oracles consumed by one `apply_exposure` call (totals of
the stress dice, the d100 resistance roll, and the severe-flare sub-rolls). -/
structure ExpoRolls where
  stressTotal : Int := 0
  resistRoll : Int := 1
  conRoll : Int := 1
  flareDmgTotal : Int := 0
  powRoll : Int := 1
  stunTotal : Int := 1
  deriving Repr, DecidableEq

/-- The severity→stress-die table of `apply_exposure` (`dice_expr` wins when
non-empty). -/
def exposureExprFor (lvl : String) (diceExpr : Option String) : String :=
  let e := diceExpr.getD ""
  if e ≠ "" then e
  else if lvl = "light" ∨ lvl = "轻" ∨ lvl = "minor" then "1d4"
  else if lvl = "medium" ∨ lvl = "中" ∨ lvl = "moderate" then "1d6+1"
  else if lvl = "heavy" ∨ lvl = "重" then "2d6"
  else if lvl = "disaster" ∨ lvl = "灾害" ∨ lvl = "catastrophic" then "2d10"
  else "1"

/-- Step 3 of `apply_exposure`: scale the raw stress by the resistance
outcome (extreme 0, other success ×0.5, fumble ×1.5, fail ×1.0; floored at 1
when the factor is positive and the floor came out nonpositive). -/
def exposureAdjust (raw : Int) (success : Bool) (level : String) (fumble : Bool) : Int :=
  if raw ≤ 0 then 0
  else if success ∧ level = "extreme" then 0
  else
    let adj :=
      if success then raw / 2
      else if fumble then raw + raw / 2
      else raw
    if adj ≤ 0 then 1 else adj

/-- `int(math.ceil(x / 2.0))` for the barrier-halved severe-flare damage. -/
def ceilHalf (x : Int) : Int := -(Int.fdiv (-x) 2)

/-- The `_handle_flares` helper of `apply_exposure`: the 20/50 thresholds are
narration-only; the 80 threshold increments the severe-flare counter, forces
a CON extreme check (1d6 damage, halved by a positive arts barrier, unless
extreme) and a POW check (stunned 1d3 turns on failure); then stress>100 or
two severe flares advance the stage.  Returns
`(final_stress, stage_advanced, world)`. -/
def handleFlares (w : World) (nm : String) (before after : Int) (rolls : ExpoRolls) :
    Int × Bool × World :=
  let p := ensureInfectionBlock w nm
  let w := p.2
  let severeHit := before < 80 ∧ 80 ≤ after
  let q :=
    if severeHit then
      let infL := { p.1 with severeFlareCount := p.1.severeFlareCount + 1 }
      let w := setInfection w nm infL
      let conChk := skill_check_coc w nm "CON" none rolls.conRoll
      let w :=
        if conChk.level ≠ "extreme" then
          let dmgRaw := rolls.flareDmgTotal
          let barrier := ((charOf w nm).coc.getD {}).terra.protection.artsBarrier
          let dmg := if barrier > 0 then ceilHalf dmgRaw else dmgRaw
          (damage w nm dmg).world
        else w
      let powChk := skill_check_coc w nm "POW" none rolls.powRoll
      let w :=
        if ¬ powChk.success then
          add_status w nm "stunned" (some (max 1 rolls.stunTotal)) "control" none
        else w
      (infL, w)
    else (p.1, w)
  let infL := q.1
  let w := q.2
  if (after > 100 ∨ infL.severeFlareCount ≥ 2) ∧ infL.stage < 3 then
    let a := advance_infection_stage w nm "auto"
    let r := ensureInfectionBlock a.2 nm
    let w := setInfection r.2 nm { r.1 with severeFlareCount := 0 }
    (r.1.stress, a.1, w)
  else (after, false, w)

/-- The result record of `apply_exposure` (the metadata fields the claims
consult). -/
structure ExposureOutcome where
  world : World
  exposureExpr : String
  rawStress : Int
  adjustedStress : Int
  resistTarget : Int
  resistSuccess : Bool
  resistLevel : String
  resistFumble : Bool
  stressBefore : Int
  stressAfter : Int
  stageAdvanced : Bool

/-- `apply_exposure(name, level, dice_expr, bonus)` with its rolls passed as
oracles: roll the severity-scaled stress die, roll the percentile resistance
check against `_infection_resist_target`, scale the gain by the outcome,
apply it to the stress track and process flares / stage advancement. -/
def apply_exposure (w : World) (nm level : String) (diceExpr : Option String)
    (bonus : Int) (rolls : ExpoRolls) : ExposureOutcome :=
  let p0 := ensureInfectionBlock w nm
  let stressBefore := p0.1.stress
  let w := p0.2
  let lvl := strLower (if level = "" then "light" else level)
  let expr := exposureExprFor lvl diceExpr
  let raw := rolls.stressTotal
  let p1 := infectionResistTarget w nm bonus
  let tgt := p1.1
  let w := p1.2
  let chk := skillCheck tgt rolls.resistRoll
  let fumble := ¬ chk.success ∧ rolls.resistRoll ≥ 96
  let adj := exposureAdjust raw chk.success chk.level fumble
  let p2 := ensureInfectionBlock w nm
  let stressRawAfter := p2.1.stress + max 0 adj
  let w := setInfection p2.2 nm { p2.1 with stress := stressRawAfter }
  let fr := handleFlares w nm stressBefore stressRawAfter rolls
  let stressAfter := fr.1
  let p3 := ensureInfectionBlock fr.2.2 nm
  let w := setInfection p3.2 nm { p3.1 with stress := stressAfter }
  { world := touch w, exposureExpr := expr, rawStress := raw,
    adjustedStress := max 0 adj, resistTarget := chk.target,
    resistSuccess := chk.success, resistLevel := chk.level, resistFumble := fumble,
    stressBefore := stressBefore, stressAfter := stressAfter, stageAdvanced := fr.2.1 }

-- ---------------------------------------------------------------------------
-- Art formula substitution and `cast_arts` (claims C5, C6)
-- ---------------------------------------------------------------------------

/-- A regex word character (`\w` over the ASCII formulas authoring uses). -/
def isWordChar (c : Char) : Bool := c.isAlphanum ∨ c = '_'

def startsWithChars : List Char → List Char → Bool
  | _, [] => true
  | [], _ :: _ => false
  | c :: cs, t :: ts => c = t ∧ startsWithChars cs ts

/-- True when the character after a length-`n` match (if any) is a non-word
character, i.e. a `\b` boundary follows. -/
def boundaryAfter (l : List Char) (n : Nat) : Bool :=
  match l.drop n with
  | [] => true
  | c :: _ => ¬ isWordChar c

/-- `re.sub(rf"\b{tok}\b", rep, s)` for a token made of word characters: scan
left to right, replacing each boundary-delimited occurrence.  The `fuel`
argument is a structural-recursion bound: each step consumes at least one
input character, so any `fuel ≥ l.length` yields the full scan. -/
def replaceTokAux (tokL repL : List Char) : Nat → Bool → List Char → List Char
  | 0, _, l => l
  | _ + 1, _, [] => []
  | fuel + 1, prevW, c :: cs =>
      if ¬ prevW ∧ tokL ≠ [] ∧ startsWithChars (c :: cs) tokL ∧
          boundaryAfter (c :: cs) tokL.length then
        repL ++ replaceTokAux tokL repL fuel true (List.drop tokL.length (c :: cs))
      else c :: replaceTokAux tokL repL fuel (isWordChar c) cs

def replaceWordToken (s tok rep : String) : String :=
  String.mk (replaceTokAux tok.toList rep.toList s.toList.length false s.toList)

/-- `_coc_raw_for` inside `_replace_art_tokens`. -/
def cocRawFor (w : World) (nm ab : String) : Int :=
  chGet ((charOf w nm).coc.getD {}).characteristics (strUpper ab) 50

/-- `max(0, v // 10)` (`_tens`). -/
def tensOf (v : Int) : Int := max 0 (Int.fdiv v 10)

/-- `max(0, v // 5)` (`_div5`). -/
def div5Of (v : Int) : Int := max 0 (Int.fdiv v 5)

/-- `_replace_art_tokens`: substitute the whitelisted characteristic tokens
(`TOK_RAW`, `TOK_10`, `TOK_5`, then bare `TOK`, for the seven non-POW
characteristics) with word-boundary matching; everything else is left in
place. -/
def replaceArtTokens (w : World) (attacker expr : String) : String :=
  let tokens := ["STR", "DEX", "CON", "INT", "SIZ", "APP", "EDU"]
  let s := tokens.foldl
    (fun s tok =>
      let raw := cocRawFor w attacker tok
      let s := replaceWordToken s (tok ++ "_RAW") (toString raw)
      let s := replaceWordToken s (tok ++ "_10") (toString (tensOf raw))
      replaceWordToken s (tok ++ "_5") (toString (div5Of raw))) expr
  tokens.foldl
    (fun s tok => replaceWordToken s tok (toString (tensOf (cocRawFor w attacker tok)))) s

/-- The fail-closed damage/heal formula gate of `cast_arts`: after lowering
and removing spaces, any character other than a digit, `d`, `+` or `-`
invalidates the expression (`re.search(r"[^0-9d+\-]", expr_norm)`). -/
def artExprInvalid (expr : String) : Bool :=
  ((stripSpaces (strLower expr)).toList).any fun c =>
    ¬ (c.isDigit ∨ c = 'd' ∨ c = '+' ∨ c = '-')

/-- The control-duration gate: `re.search(r"[A-Za-z]", dur_str)`. -/
def durExprInvalid (s : String) : Bool := s.toList.any Char.isAlpha

def skipSpaces (l : List Char) : List Char := l.dropWhile (· = ' ')

def parseDigits (l : List Char) : Option (Int × List Char) :=
  let ds := l.takeWhile Char.isDigit
  if ds = [] then none
  else some (ds.foldl (fun a c => a * 10 + (c.toNat - 48 : Int)) 0, l.dropWhile Char.isDigit)

def evalSumGo : Nat → List Char → Int → Option Int
  | 0, _, _ => none
  | fuel + 1, l, acc =>
      match skipSpaces l with
      | [] => some acc
      | c :: rest =>
          if c = '+' ∨ c = '-' then
            match parseDigits (skipSpaces rest) with
            | some (n, l3) => evalSumGo fuel l3 (acc + (if c = '+' then n else -n))
            | none => none
          else none

/-- Models `int(eval(dur_str, ...))` on the `±k±k…` integer grammar the
duration formulas are authored in (anything unparsable falls back like the
source's `except` branch, via `Option`). -/
def evalSignedSum (s : String) : Option Int :=
  let l := skipSpaces s.toList
  if l = [] then none
  else
    match parseDigits l with
    | some (n, rest) => evalSumGo (rest.length + 1) rest n
    | none => evalSumGo (l.length + 1) l 0

/-- The overcharge stress-die escalation ladder `_step_expr` of `cast_arts`. -/
def stepExpr (expr : String) : String :=
  let e := stripSpaces expr
  if e = "1d4" then "1d6"
  else if e = "1d6" ∨ e = "1d6+0" then "1d6+1"
  else if e = "1d6+1" ∨ e = "1d6+2" then "2d6"
  else if e = "2d6" then "2d6+2"
  else expr

/-- `for _ in range(max(0, step)): over_expr = _step_expr(over_expr)`. -/
def iterStepExpr : Nat → String → String
  | 0, e => e
  | n + 1, e => iterStepExpr n (stepExpr e)

/-- The dice-roll oracles consumed by one `cast_arts` call. -/
structure CastRolls where
  expo : ExpoRolls := {}
  atkRoll : Int := 1
  defRoll : Int := 1
  dmgTotal : Int := 0
  healTotal : Int := 0
  deriving Repr, DecidableEq

/-- The outcome record of `cast_arts` (metadata plus the model-level facts
the claims consult: whether the overcharge fallback fired, the effective MP
spent, the overridden attack value, and the stress-die expression passed to
the exposure subsystem). -/
structure CastOutcome where
  world : World
  ok : Bool
  errorType : Option String := none
  overcharge : Bool := false
  effSpent : Int := 0
  atkValueOverride : Option Int := none
  overchargeExposureExpr : Option String := none
  success : Bool := false

/-- The control-effect block at the end of `cast_arts`, followed by the final
version bump. -/
def castControlPhase (w : World) (attacker : String) (ad : ArtDef) (tgt : String)
    (oc : Bool) (eff : Int) (ov : Option Int) (oe : Option String) (success : Bool) :
    CastOutcome :=
  if success ∧ ad.controlEffect ≠ "" then
    let durExpr := if ad.controlDuration = "" then "1" else ad.controlDuration
    let durStr := replaceArtTokens w attacker durExpr
    if durExprInvalid durStr then
      { world := w, ok := false, errorType := some "art_duration_expr_invalid",
        overcharge := oc, effSpent := eff, atkValueOverride := ov,
        overchargeExposureExpr := oe, success := success }
    else
      let durVal := (evalSignedSum durStr).getD 1
      let w := add_status w tgt ad.controlEffect (some durVal) "control" (some attacker)
      { world := touch w, ok := true, overcharge := oc, effSpent := eff,
        atkValueOverride := ov, overchargeExposureExpr := oe, success := success }
  else
    { world := touch w, ok := true, overcharge := oc, effSpent := eff,
      atkValueOverride := ov, overchargeExposureExpr := oe, success := success }

/-- The heal block of `cast_arts`. -/
def castHealPhase (w : World) (attacker : String) (ad : ArtDef) (tgt : String)
    (rolls : CastRolls) (oc : Bool) (eff : Int) (ov : Option Int) (oe : Option String)
    (success : Bool) : CastOutcome :=
  if success ∧ ad.heal ≠ "" then
    let expr := replaceArtTokens w attacker ad.heal
    if artExprInvalid expr then
      { world := w, ok := false, errorType := some "art_heal_expr_invalid",
        overcharge := oc, effSpent := eff, atkValueOverride := ov,
        overchargeExposureExpr := oe, success := success }
    else
      let healed := max 0 rolls.healTotal
      let w := heal w tgt healed
      castControlPhase w attacker ad tgt oc eff ov oe success
  else castControlPhase w attacker ad tgt oc eff ov oe success

/-- The contest and effect application of `cast_arts` after MP payment. -/
def castResolve (w : World) (attacker : String) (ad : ArtDef) (tgt : String)
    (rolls : CastRolls) (oc : Bool) (eff : Int) (ov : Option Int) (oe : Option String) :
    CastOutcome :=
  let success :=
    attackRunCheckOrContest w attacker tgt ad.castSkill ad.resist ov rolls.atkRoll rolls.defRoll
  if success ∧ ad.damage ≠ "" then
    let expr := replaceArtTokens w attacker ad.damage
    if artExprInvalid expr then
      { world := w, ok := false, errorType := some "art_damage_expr_invalid",
        overcharge := oc, effSpent := eff, atkValueOverride := ov,
        overchargeExposureExpr := oe, success := success }
    else
      let w := (attackApplyDamage w tgt rolls.dmgTotal (strLower ad.damageType) (charOf w tgt)).1
      castHealPhase w attacker ad tgt rolls oc eff ov oe success
  else castHealPhase w attacker ad tgt rolls oc eff ov oe success

/-- The effective MP spend computed by `cast_arts`: fixed powers spend the
configured cost; variable powers clamp the requested spend between the
minimum cost and `min(hard_max, current mp)`. -/
def castEffSpent (w : World) (attacker : String) (ad : ArtDef) (mpSpent : Option Int) : Int :=
  if ¬ ad.mpVariable then max 0 ad.mpCost
  else
    let req := max 0 ad.mpCost
    let want := mpSpent.getD req
    let cap := (charOf w attacker).mp.getD req
    let hardMax := if ad.mpMax > 0 then ad.mpMax else cap
    max req (min hardMax (min want cap))

/-- The MP payment phase of `cast_arts` (fixed / variable / overcharge
fallback), then resolution. -/
def castPayAndResolve (w : World) (attacker : String) (ad : ArtDef) (tgt : String)
    (mpSpent : Option Int) (rolls : CastRolls) : CastOutcome :=
  let mpCost := ad.mpCost
  let effSpent0 := castEffSpent w attacker ad mpSpent
  let sp := spend_mp w attacker effSpent0
  if ¬ sp.1 then
    if mpCost > 0 then
      let st := charOf w attacker
      let cur := st.mp.getD 0
      let w := if cur > 0 then setChar w attacker { st with mp := some 0 } else w
      let effSpent := if cur > 0 then cur else 0
      let base := cocSkillValue w attacker ad.castSkill
      let ov0 := max 0 (base - 20)
      let ov := if ov0 ≤ 0 then 1 else ov0
      let pI := ensureInfectionBlock w attacker
      let overExpr := iterStepExpr (max 0 pI.1.overchargeStep).toNat "1d4"
      let w := (apply_exposure pI.2 attacker "light" (some overExpr) 0 rolls.expo).world
      castResolve w attacker ad tgt rolls true effSpent (some ov) (some overExpr)
    else
      { world := sp.2, ok := false, errorType := some "mp_insufficient" }
  else
    castResolve sp.2 attacker ad tgt rolls false effSpent0 none none

/-- The optional guard-interception step of `cast_arts`: only arts tagged
`guard-intercept` / `allow-guard-intercept` redirect to a protector. -/
def castGuardPhase (w : World) (attacker : String) (ad : ArtDef) (tgt : String) :
    String × Option String × World :=
  if ad.tags.contains "guard-intercept" ∨ ad.tags.contains "allow-guard-intercept" then
    resolveGuardInterception w attacker tgt ad.rangeSteps
  else (tgt, none, w)

/-- `cast_arts(attacker, art, target, mp_spent)` with rolls as oracles:
status gate, participants gate, art lookup and validation, target
resolution, optional guard interception, range and line-of-sight gates, MP
payment with the overcharge fallback, opposed resolution, then the
damage/heal/control effect blocks. -/
def cast_arts (w : World) (attacker art : String) (target : Option String)
    (mpSpent : Option Int) (rolls : CastRolls) : CastOutcome :=
  if blockedAction w attacker "cast" then
    { world := w, ok := false, errorType := some "attacker_unable" }
  else
    let tgt0 := match target with
      | some t => if t = "" then none else some t
      | none => none
    if w.participants ≠ [] ∧ ¬ w.participants.contains attacker then
      { world := w, ok := false, errorType := some "not_participant" }
    else if w.participants ≠ [] ∧
        (tgt0.map fun t => ! w.participants.contains t).getD false then
      { world := w, ok := false, errorType := some "not_participant" }
    else
      match alookup w.artsDefs art with
      | none => { world := w, ok := false, errorType := some "unknown_art" }
      | some ad =>
          if ad.castSkill = "" ∨ ad.resist = "" then
            { world := w, ok := false, errorType := some "art_def_invalid" }
          else
            match tgt0 with
            | none => { world := w, ok := false, errorType := some "missing_param" }
            | some tgt =>
                let rng := ad.rangeSteps
                let gi := castGuardPhase w attacker ad tgt
                let tgt := gi.1
                let w := gi.2.2
                match getDistanceStepsBetween w attacker tgt with
                | none => { world := w, ok := false, errorType := some "out_of_reach" }
                | some d =>
                    if d > rng then
                      { world := w, ok := false, errorType := some "out_of_reach" }
                    else if ad.tags.contains "line-of-sight" ∧
                        (alookup w.cover tgt).getD "none" = "total" then
                      { world := w, ok := false, errorType := some "no_los" }
                    else castPayAndResolve w attacker ad tgt mpSpent rolls

-- ---------------------------------------------------------------------------
-- Ending evaluation (claim C8)
-- ---------------------------------------------------------------------------

/-- `_alive` of the endings section: hp>0 and not dying, hp defaulting to 0. -/
def endingAlive (w : World) (nm : String) : Bool :=
  let st := charOf w nm
  decide (st.hp > 0) && st.dyingTurnsLeft.isNone

/-- `WORLD.relations.get((a, b), 0)`. -/
def relGet (w : World) (a b : String) : Int :=
  match w.relations.find? (fun p => p.1.1 == a && p.1.2 == b) with
  | some p => p.2
  | none => 0

/-- The pairwise hostile scan of `hostiles_present`. -/
def hostilesAmong (w : World) (thr : Int) : List String → Bool
  | [] => false
  | a :: rest =>
      rest.any (fun b => decide (relGet w a b ≤ thr) || decide (relGet w b a ≤ thr)) ||
        hostilesAmong w thr rest

/-- `hostiles_present(participants, threshold)`: candidate names fall back
from participants to positioned actors to all characters; a missing sheet
counts as living (`get("hp", 1)`); a hostile pair is a relation at or below
the threshold in either direction. -/
def hostiles_present (w : World) (participants : List String) (threshold : Int) : Bool :=
  let names :=
    if participants ≠ [] then participants
    else if w.positions ≠ [] then w.positions.map (·.1)
    else w.characters.map (·.1)
  let live := names.filter fun nm =>
    match alookup w.characters nm with
    | none => true
    | some st => decide (st.hp > 0)
  if live.length ≤ 1 then false
  else hostilesAmong w threshold live

mutual

/-- `_eval_when(node)`: evaluate a condition tree, returning the match flag
and the human-readable reasons collected from matching leaves. -/
def evalWhen (w : World) : Cond → Bool × List String
  | .allOf xs =>
      let r := evalConj w xs
      (r.1, if r.1 then r.2 else [])
  | .anyOf xs => evalDisj w xs
  | .negOf c =>
      let r := evalWhen w c
      (! r.1, if r.1 then [] else ["not"])
  | .objectives names require status =>
      let require := strLower require
      let status := strLower status
      let targetNames := if names ≠ [] then names else w.objectives
      if targetNames = [] then (false, [])
      else
        let matchOne := fun nm =>
          (status == "any") || (strLower ((alookup w.objectiveStatus nm).getD "pending") == status)
        let ok := if require == "all" then targetNames.all matchOne else targetNames.any matchOne
        (ok, if ok then
          ["目标" ++ (if require == "all" then "全部" else "部分") ++ "达成(status=" ++ status ++ ")"]
         else [])
  | .timeBefore t =>
      match t with
      | none => (false, [])
      | some tv =>
          let ok := decide (w.timeMin < tv)
          (ok, if ok then ["时间早于" ++ toString tv ++ "分钟"] else [])
  | .timeAtLeast t =>
      match t with
      | none => (false, [])
      | some tv =>
          let ok := decide (w.timeMin ≥ tv)
          (ok, if ok then ["时间不早于" ++ toString tv ++ "分钟"] else [])
  | .actorsAlive names require =>
      if names = [] then (false, [])
      else
        let ok := if strLower require == "all" then names.all (endingAlive w)
                  else names.any (endingAlive w)
        (ok, if ok then ["角色存活:" ++ String.intercalate ", " names] else [])
  | .actorsDead names require =>
      if names = [] then (false, [])
      else
        let ok := if strLower require == "all" then names.all (fun n => ! endingAlive w n)
                  else names.any (fun n => ! endingAlive w n)
        (ok, if ok then ["角色死亡:" ++ String.intercalate ", " names] else [])
  | .participantsAliveAtLeast n =>
      let cur := w.participants.filter (endingAlive w)
      match n with
      | none => (false, [])
      | some need =>
          let ok := decide ((cur.length : Int) ≥ need)
          (ok, if ok then ["存活参与者≥" ++ toString need] else [])
  | .participantsAliveAtMost n =>
      let cur := w.participants.filter (endingAlive w)
      match n with
      | none => (false, [])
      | some cap =>
          let ok := decide ((cur.length : Int) ≤ cap)
          (ok, if ok then ["存活参与者≤" ++ toString cap] else [])
  | .hostilesGate want thr =>
      let hp := hostiles_present w w.participants (thr.getD (-10))
      let ok := if want then hp else ! hp
      (ok, if ok then [if want then "敌对存在" else "已清场"] else [])
  | .marksContainsStr s =>
      let ok := w.marks.contains s
      (ok, if ok then ["刻痕包含：" ++ s] else [])
  | .marksContainsAny xs =>
      let ok := xs.any (w.marks.contains ·)
      (ok, if ok then ["刻痕命中任一"] else [])
  | .tensionAtLeast n =>
      match n with
      | none => (false, [])
      | some need =>
          let ok := decide (w.tension ≥ need)
          (ok, if ok then ["气氛≥" ++ toString need] else [])
  | .tensionAtMost n =>
      match n with
      | none => (false, [])
      | some cap =>
          let ok := decide (w.tension ≤ cap)
          (ok, if ok then ["气氛≤" ++ toString cap] else [])
  | .locationIsStr s =>
      let ok := w.location == s
      (ok, if ok then ["地点=" ++ s] else [])
  | .locationIsAny xs =>
      let ok := xs.any (w.location == ·)
      (ok, if ok then ["地点命中"] else [])
  | .unknown => (false, [])

/-- The `all` accumulator of `_eval_when` (collects reasons of matching
parts; the conjunction fails when any part fails). -/
def evalConj (w : World) : List Cond → Bool × List String
  | [] => (true, [])
  | c :: cs =>
      let r := evalWhen w c
      let rs := evalConj w cs
      (r.1 && rs.1, (if r.1 then r.2 else []) ++ rs.2)

/-- The `any` scan of `_eval_when` (first match wins and returns its
reasons). -/
def evalDisj (w : World) : List Cond → Bool × List String
  | [] => (false, [])
  | c :: cs =>
      let r := evalWhen w c
      if r.1 then (true, r.2) else evalDisj w cs

end

/-- Stable descending priority order of `defs.sort(key=priority,
reverse=True)`. -/
def ruleGE (a b : EndingRule) : Prop := b.priority ≤ a.priority

instance : DecidableRel ruleGE := fun a b => by
  unfold ruleGE; infer_instance

def sortRulesDesc (l : List EndingRule) : List EndingRule :=
  l.insertionSort ruleGE

/-- The first-satisfied-rule scan of `evaluate_endings`. -/
def firstEndingMatch (w : World) : List EndingRule → Option (EndingRule × List String)
  | [] => none
  | d :: rest =>
      let r := match d.when with
        | some c => evalWhen w c
        | none => (false, [])
      if r.1 then some (d, r.2) else firstEndingMatch w rest

/-- The unfrozen path of `evaluate_endings`: sort by priority, freeze the
first satisfied rule's verdict. -/
def evaluateEndingsFresh (w : World) : Option EndingState × World :=
  if w.endingsDefs.isEmpty then (none, w)
  else
    match firstEndingMatch w (sortRulesDesc w.endingsDefs) with
    | none => (none, w)
    | some (d, reasons) =>
        let st : EndingState :=
          { ended := true, endingId := d.id, label := d.label, outcome := d.outcome,
            reasons := reasons, timeMin := w.timeMin }
        (some st, touch { w with endingState := some st })

/-- `evaluate_endings()`: a frozen result is returned unchanged; otherwise
evaluate and freeze the first match. -/
def evaluate_endings (w : World) : Option EndingState × World :=
  match w.endingState with
  | some st => if st.ended then (some st, w) else evaluateEndingsFresh w
  | none => evaluateEndingsFresh w

/-- The unfrozen path of `end_now`. -/
def endNowFresh (w : World) (endingId : Option String) (note : String) :
    EndingState × World :=
  let eid := pyStrip (endingId.getD "")
  let st : EndingState :=
    { ended := true, endingId := if eid = "" then none else some eid,
      label := if note = "" then none else some note, outcome := none,
      reasons := if note = "" then [] else [note], timeMin := w.timeMin }
  (st, touch { w with endingState := some st })

/-- `end_now(ending_id, note)`: manual override; idempotent once frozen. -/
def end_now (w : World) (endingId : Option String) (note : String) :
    EndingState × World :=
  match w.endingState with
  | some st => if st.ended then (st, w) else endNowFresh w endingId note
  | none => endNowFresh w endingId note

-- ---------------------------------------------------------------------------
-- Basic lemmas about the state helpers
-- ---------------------------------------------------------------------------

@[simp] theorem alookup_aremove_self {α : Type} (m : List (String × α)) (k : String) :
    alookup (aremove m k) k = none := by
  induction m with
  | nil => simp [aremove, alookup]
  | cons hd tl ih =>
      obtain ⟨k', v'⟩ := hd
      by_cases h : k' = k <;> simp [aremove, alookup, h, ih]

@[simp] theorem alookup_aremove_ne {α : Type} (m : List (String × α)) (k k2 : String)
    (h : k ≠ k2) : alookup (aremove m k) k2 = alookup m k2 := by
  induction m with
  | nil => simp [aremove, alookup]
  | cons hd tl ih =>
      obtain ⟨k', v'⟩ := hd
      by_cases hk : k' = k
      · subst hk
        simp [aremove, alookup, h, Ne.symm h, ih]
      · simp [aremove, alookup, hk, ih]

@[simp] theorem charOf_touch (w : World) (nm : String) : charOf (touch w) nm = charOf w nm := rfl

@[simp] theorem statusesOf_touch (w : World) (nm : String) :
    statusesOf (touch w) nm = statusesOf w nm := rfl

@[simp] theorem positions_touch (w : World) : (touch w).positions = w.positions := rfl

@[simp] theorem charOf_setChar_self (w : World) (nm : String) (st : CharSheet) :
    charOf (setChar w nm st) nm = st := by
  simp [charOf, setChar]

theorem charOf_setChar_ne (w : World) (nm : String) (st : CharSheet) (n2 : String)
    (h : nm ≠ n2) : charOf (setChar w nm st) n2 = charOf w n2 := by
  simp [charOf, setChar, alookup_aset_ne _ _ _ _ h]

@[simp] theorem statusesOf_setChar (w : World) (nm : String) (st : CharSheet) (n2 : String) :
    statusesOf (setChar w nm st) n2 = statusesOf w n2 := rfl

@[simp] theorem positions_setChar (w : World) (nm : String) (st : CharSheet) :
    (setChar w nm st).positions = w.positions := rfl

@[simp] theorem charOf_add_status (w : World) (nm s : String) (d : Option Int) (k : String)
    (src : Option String) (n2 : String) : charOf (add_status w nm s d k src) n2 = charOf w n2 := rfl

@[simp] theorem charOf_remove_status (w : World) (nm s n2 : String) :
    charOf (remove_status w nm s) n2 = charOf w n2 := rfl

@[simp] theorem statusesOf_add_status_self (w : World) (nm s : String) (d : Option Int)
    (k : String) (src : Option String) :
    statusesOf (add_status w nm s d k src) nm =
      aset (statusesOf w nm) s { remaining := d, kind := k, source := src } := by
  simp [add_status, statusesOf]

@[simp] theorem statusesOf_remove_status_self (w : World) (nm s : String) :
    statusesOf (remove_status w nm s) nm = aremove (statusesOf w nm) s := by
  simp [remove_status, statusesOf]

-- ---------------------------------------------------------------------------
-- C1 / C10: the hp≤0 → dying → dead state machine of `damage`
-- ---------------------------------------------------------------------------

/-- C1: for an actor not already dying, a damage application that brings hit
points to 0 or below enters the dying state — hp pinned at 0, a countdown of
`DYING_TURNS_DEFAULT` turns set, a system `dying` status attached, and no
`dead` status added (never direct death); for an actor already dying, any
damage application causes immediate death, bypassing the countdown. -/
theorem damage_dying_state_machine (w : World) (nm : String) (amount : Int) :
    (isDying w nm = false → (charOf w nm).hp ≤ max 0 amount →
      (charOf (damage w nm amount).world nm).hp = 0 ∧
      (charOf (damage w nm amount).world nm).dyingTurnsLeft = some DYING_TURNS_DEFAULT ∧
      alookup (statusesOf (damage w nm amount).world nm) "dying" =
        some { remaining := some DYING_TURNS_DEFAULT, kind := "system", source := none } ∧
      has_status (damage w nm amount).world nm "dead" = has_status w nm "dead") ∧
    (isDying w nm = true →
      (charOf (damage w nm amount).world nm).hp = 0 ∧
      (charOf (damage w nm amount).world nm).dyingTurnsLeft = none ∧
      has_status (damage w nm amount).world nm "dead" = true) := by
  constructor
  · intro hnd hko
    have hdn : (charOf w nm).dyingTurnsLeft = none := by
      simpa [isDying, Option.isSome_iff_exists] using hnd
    have hhp : max 0 ((charOf w nm).hp - max 0 amount) = 0 := by omega
    simp only [damage, enterDying, DYING_TURNS_DEFAULT, has_status]
    split_ifs with h1 h2 h3 h4 <;>
      simp_all [charOf_setChar_self, statusesOf_setChar, alookup_aset_ne] <;>
      omega
  · intro hd
    have hdn : (charOf w nm).dyingTurnsLeft.isSome = true := hd
    simp only [damage, die, has_status]
    split_ifs with h1 h2 h3 <;>
      simp_all [charOf_setChar_self, statusesOf_setChar,
        alookup_aset_ne, alookup_aremove_ne]

/-- C10: for an actor in the dying state, `damage` with any amount — zero
included — finalizes death immediately: hp 0, the countdown field removed, a
permanent (indefinite) system `dead` status attached. -/
theorem damage_zero_kills_dying (w : World) (nm : String) (amount : Int)
    (hd : isDying w nm = true) :
    (charOf (damage w nm amount).world nm).hp = 0 ∧
    (charOf (damage w nm amount).world nm).dyingTurnsLeft = none ∧
    alookup (statusesOf (damage w nm amount).world nm) "dead" =
      some { remaining := none, kind := "system", source := none } ∧
    alookup (statusesOf (damage w nm amount).world nm) "dying" = none ∧
    (damage w nm amount).dead = true := by
  have hdn : (charOf w nm).dyingTurnsLeft.isSome = true := hd
  simp only [damage, die]
  split_ifs with h1 h2 h3 <;>
    simp_all [charOf_setChar_self, statusesOf_setChar,
      alookup_aset_ne, alookup_aremove_ne]

/-- A small demo world: `A` at 1 hp (not dying), `B` at 0 hp with a dying
countdown of 2 turns. -/
def dyingDemoWorld : World :=
  { characters :=
      [("A", { hp := 1, maxHp := 10 }),
       ("B", { hp := 0, maxHp := 10, dyingTurnsLeft := some 2 })] }

theorem damage_dying_state_machine_witness :
    (charOf (damage dyingDemoWorld "A" 5).world "A").hp = 0 ∧
    (charOf (damage dyingDemoWorld "A" 5).world "A").dyingTurnsLeft = some DYING_TURNS_DEFAULT ∧
    alookup (statusesOf (damage dyingDemoWorld "A" 5).world "A") "dying" =
      some { remaining := some DYING_TURNS_DEFAULT, kind := "system", source := none } ∧
    has_status (damage dyingDemoWorld "A" 5).world "A" "dead" =
      has_status dyingDemoWorld "A" "dead" :=
  (damage_dying_state_machine dyingDemoWorld "A" 5).1 (by decide) (by decide)

theorem damage_zero_kills_dying_witness :
    (charOf (damage dyingDemoWorld "B" 0).world "B").hp = 0 ∧
    (charOf (damage dyingDemoWorld "B" 0).world "B").dyingTurnsLeft = none ∧
    alookup (statusesOf (damage dyingDemoWorld "B" 0).world "B") "dead" =
      some { remaining := none, kind := "system", source := none } ∧
    alookup (statusesOf (damage dyingDemoWorld "B" 0).world "B") "dying" = none ∧
    (damage dyingDemoWorld "B" 0).dead = true :=
  damage_zero_kills_dying dyingDemoWorld "B" 0 (by decide)

-- ---------------------------------------------------------------------------
-- C2: the opposed percentile check against the spec's tier thresholds
-- ---------------------------------------------------------------------------

/-- The success tier exactly as the spec sentence words it: extreme when
`roll ≤ skill/5`, hard when `roll ≤ skill/2`, regular when `roll ≤ skill`,
fail otherwise (stated multiplicatively, which agrees with both real and
floor division on integer rolls). -/
def specTier (skill roll : Int) : Int :=
  if roll * 5 ≤ skill then 3
  else if roll * 2 ≤ skill then 2
  else if roll ≤ skill then 1
  else 0

/-- The opposed-check winner as the spec sentence words it: higher tier wins,
equal tiers decided by the lower raw roll, full ties favor the defender. -/
def specOpposedWinner (a : String) (aSkill aRoll : Int) (b : String) (bSkill bRoll : Int) :
    String :=
  let ta := specTier aSkill aRoll
  let tb := specTier bSkill bRoll
  if ta ≠ tb then (if ta > tb then a else b)
  else if aRoll ≠ bRoll then (if aRoll < bRoll then a else b)
  else b

/-- The tier thresholds the engine actually uses: the skill is floored at 1
and each band threshold is floored at 1 (`max(1, t // 5)`, `max(1, t // 2)`). -/
def specTierAmended (skill roll : Int) : Int :=
  let t := max 1 skill
  if roll ≤ max 1 (t / 5) then 3
  else if roll ≤ max 1 (t / 2) then 2
  else if roll ≤ t then 1
  else 0

/-- The opposed-check winner with the amended (floored) tier thresholds. -/
def specOpposedWinnerAmended (a : String) (aSkill aRoll : Int) (b : String)
    (bSkill bRoll : Int) : String :=
  let ta := specTierAmended aSkill aRoll
  let tb := specTierAmended bSkill bRoll
  if ta ≠ tb then (if ta > tb then a else b)
  else if aRoll ≠ bRoll then (if aRoll < bRoll then a else b)
  else b

/-- A demo world for the opposed check: `A` has skill `S` at 3, `B` has
skill `T` at 100; neither is dying. -/
def contestDemoWorld : World :=
  { characters :=
      [("A", { hp := 5, maxHp := 10, coc := some { skills := [("S", 3)] } }),
       ("B", { hp := 5, maxHp := 10, coc := some { skills := [("T", 100)] } })] }

/-- C2 counterexample: at skill 3 the engine floors the extreme threshold to
1, so a roll of 1 counts as an extreme success, while the spec's
`roll ≤ skill/5` band is empty; against a genuine extreme success at skill
100 (roll 20) the engine breaks the extreme-extreme tie by the lower roll
and lets the attacker win, while the spec's tiers make the defender win. -/
theorem contest_spec_tier_counterexample :
    cocSkillValue contestDemoWorld "A" "S" = 3 ∧
    cocSkillValue contestDemoWorld "B" "T" = 100 ∧
    isDying contestDemoWorld "A" = false ∧
    isDying contestDemoWorld "B" = false ∧
    contest contestDemoWorld "A" "S" "B" "T" 1 20 = "A" ∧
    specOpposedWinner "A" 3 1 "B" 100 20 = "B" ∧
    contest contestDemoWorld "A" "S" "B" "T" 1 20 ≠ specOpposedWinner "A" 3 1 "B" 100 20 := by
  decide

@[simp] theorem skillCheck_roll (t roll : Int) : (skillCheck t roll).roll = roll := by
  simp only [skillCheck]
  split_ifs <;> rfl

theorem levelRank_skillCheck (t roll : Int) :
    levelRank (skillCheck t roll).level = specTierAmended t roll := by
  simp only [skillCheck, specTierAmended]
  split_ifs <;> simp [levelRank]

/-- C2 amended: for two non-dying participants, `contest` resolves exactly
as the opposed rule with the floored tier thresholds — each side's tier from
its sheet skill value, higher tier wins, equal tiers decided by the lower
raw roll, and full ties always favor the defender. -/
theorem contest_matches_amended_spec (w : World) (a aSkill b bSkill : String) (ra rb : Int)
    (ha : isDying w a = false) (hb : isDying w b = false) :
    contest w a aSkill b bSkill ra rb =
      specOpposedWinnerAmended a (cocSkillValue w a aSkill) ra b (cocSkillValue w b bSkill) rb := by
  unfold contest specOpposedWinnerAmended
  simp only [ha, hb, skill_check_coc, skillCheck_roll, levelRank_skillCheck,
    Bool.false_eq_true, false_and, and_false, if_false]

theorem contest_matches_amended_spec_witness :
    contest contestDemoWorld "A" "S" "B" "T" 1 20 =
      specOpposedWinnerAmended "A" (cocSkillValue contestDemoWorld "A" "S") 1 "B"
        (cocSkillValue contestDemoWorld "B" "T") 20 :=
  contest_matches_amended_spec contestDemoWorld "A" "S" "B" "T" 1 20 (by decide) (by decide)

-- ---------------------------------------------------------------------------
-- C8: frozen ending verdicts are idempotent
-- ---------------------------------------------------------------------------

/-- C8: once any ending result is frozen (by rule match or by the manual
override), every later evaluation — `evaluate_endings` or `end_now` with any
arguments — returns the identical frozen verdict on any world that carries
it (so no intervening change to the other world fields can alter it), and
leaves the world unchanged. -/
theorem endings_frozen_idempotent (w : World) (st : EndingState)
    (hfrozen : w.endingState = some st) (hended : st.ended = true)
    (eid : Option String) (note : String) :
    evaluate_endings w = (some st, w) ∧ end_now w eid note = (st, w) := by
  unfold evaluate_endings end_now
  rw [hfrozen]
  simp [hended]

/-- A frozen ending verdict for the witness. -/
def frozenDemoSt : EndingState :=
  { ended := true, endingId := some "e1", label := some "demo",
    outcome := some "success", reasons := ["气氛≥3"], timeMin := 480 }

/-- A world carrying the frozen verdict. -/
def frozenDemoWorld : World :=
  { tension := 4, endingState := some frozenDemoSt }

theorem endings_frozen_idempotent_witness :
    evaluate_endings frozenDemoWorld = (some frozenDemoSt, frozenDemoWorld) ∧
    end_now frozenDemoWorld (some "other") "note" = (frozenDemoSt, frozenDemoWorld) :=
  endings_frozen_idempotent frozenDemoWorld frozenDemoSt rfl (by decide) (some "other") "note"

-- ---------------------------------------------------------------------------
-- C9: the version-counter invariant is broken by `heal` and `add_status`
-- ---------------------------------------------------------------------------

/-- A world for the version-counter check: `X` at 1/10 hp. -/
def healDemoWorld : World := { characters := [("X", { hp := 1, maxHp := 10 })] }

/-- C9 (code bug): `heal` mutates hit points (1 → 6) and `add_status`
attaches a status, yet neither bumps the World version counter, while
`damage` does — contradicting the documented invariant that every mutating
operation increments the version. -/
theorem heal_mutates_without_version_bump :
    (charOf (heal healDemoWorld "X" 5) "X").hp = 6 ∧
    (charOf healDemoWorld "X").hp = 1 ∧
    (heal healDemoWorld "X" 5).version = healDemoWorld.version ∧
    has_status (add_status healDemoWorld "X" "stunned" (some 2) "control" none) "X" "stunned" = true ∧
    has_status healDemoWorld "X" "stunned" = false ∧
    (add_status healDemoWorld "X" "stunned" (some 2) "control" none).version = healDemoWorld.version ∧
    (damage healDemoWorld "X" 1).world.version = healDemoWorld.version + 1 := by
  decide

-- ---------------------------------------------------------------------------
-- C3: guard interception
-- ---------------------------------------------------------------------------

theorem candLE_refl (x : GuardCand) : candLE x x := Or.inr ⟨rfl, le_refl _⟩

/-- The head of the sorted candidate list is a candidate and is
lexicographically minimal (nearest to the attacker, ties by registration
order). -/
theorem sorted_head_min {l : List GuardCand} {c : GuardCand} {rest : List GuardCand}
    (h : l.insertionSort candLE = c :: rest) :
    c ∈ l ∧ ∀ x ∈ l, candLE c x := by
  have hperm := List.perm_insertionSort candLE l
  rw [h] at hperm
  have hs := List.sorted_insertionSort candLE l
  rw [h] at hs
  refine ⟨hperm.subset (List.mem_cons_self _ _), ?_⟩
  intro x hx
  have hx2 : x ∈ c :: rest := hperm.symm.subset hx
  rcases List.mem_cons.mp hx2 with rfl | hx3
  · exact candLE_refl x
  · exact (List.sorted_cons.mp hs).1 x hx3

/-- Membership in the candidate list implies the four eligibility
conditions, and the recorded distance is the attacker→guardian distance. -/
theorem mem_guardCandidates_props {w : World} {attacker protectee : String} {reach : Int}
    {gs : List String} {c : GuardCand}
    (h : c ∈ guardCandidates w attacker protectee reach gs) :
    isAliveGuard w c.2.2 = true ∧
    (∃ dgp, getDistanceStepsBetween w c.2.2 protectee = some dgp ∧ dgp ≤ 1) ∧
    (turnOf w c.2.2).reactionAvailable = true ∧
    getDistanceStepsBetween w attacker c.2.2 = some c.1 ∧ c.1 ≤ reach := by
  unfold guardCandidates at h
  rw [List.mem_filterMap] at h
  obtain ⟨p, _, hf⟩ := h
  dsimp only at hf
  by_cases h1 : isAliveGuard w p.2
  · rw [if_neg (by simp [h1])] at hf
    rcases hd1 : getDistanceStepsBetween w p.2 protectee with _ | dgp
    · simp only [hd1] at hf
      exact Option.noConfusion hf
    · simp only [hd1] at hf
      by_cases h2 : dgp > 1
      · simp [h2] at hf
      · rw [if_neg h2] at hf
        by_cases h3 : (turnOf w p.2).reactionAvailable
        · rw [if_neg (by simp [h3])] at hf
          rcases hd2 : getDistanceStepsBetween w attacker p.2 with _ | dag
          · simp only [hd2] at hf
            exact Option.noConfusion hf
          · simp only [hd2] at hf
            by_cases h4 : dag > reach
            · simp [h4] at hf
            · rw [if_neg h4] at hf
              obtain rfl := Option.some_injective _ hf
              exact ⟨h1, ⟨dgp, hd1, by omega⟩, h3, hd2, by omega⟩
        · rw [if_pos (by simp [h3])] at hf
          exact absurd hf (by simp)
  · rw [if_pos (by simp [h1])] at hf
    exact absurd hf (by simp)

@[simp] theorem turnOf_setTurn_self (w : World) (nm : String) (ts : TurnState) :
    turnOf (setTurn w nm ts) nm = ts := by
  simp [turnOf, setTurn]

@[simp] theorem turnOf_touch (w : World) (nm : String) : turnOf (touch w) nm = turnOf w nm := rfl

/-- `use_action` on an available reaction: spends it and bumps the version. -/
theorem use_action_reaction_ok {w : World} {g : String}
    (h : (turnOf w g).reactionAvailable = true) :
    use_action w g "reaction" =
      (true, touch (setTurn w g { turnOf w g with reactionAvailable := false })) := by
  unfold use_action
  simp [h]

/-- C3: `_resolve_guard_interception` substitutes a protector only when it is
alive, at most 1 step from the protectee, within the attacker's weapon reach,
and has its reaction available; among the candidate entries the chosen one is
lexicographically minimal in (distance to attacker, registration index) —
nearest first, ties broken by registration order — and its reaction is spent
(the only world change); when no candidate is eligible, defender and world
are unchanged. -/
theorem guard_interception_correct (w : World) (attacker defender : String) (reach : Int) :
    ((resolveGuardInterception w attacker defender reach).2.1 = none →
      (resolveGuardInterception w attacker defender reach).1 = defender ∧
      (resolveGuardInterception w attacker defender reach).2.2 = w) ∧
    (∀ g, (resolveGuardInterception w attacker defender reach).2.1 = some g →
      (resolveGuardInterception w attacker defender reach).1 = g ∧
      isAliveGuard w g = true ∧
      (∃ dgp, getDistanceStepsBetween w g defender = some dgp ∧ dgp ≤ 1) ∧
      (turnOf w g).reactionAvailable = true ∧
      (∃ dag, getDistanceStepsBetween w attacker g = some dag ∧ dag ≤ reach ∧
        ∃ idx, (dag, idx, g) ∈ guardCandidates w attacker defender reach
            ((alookup w.guardians defender).getD []) ∧
          ∀ c ∈ guardCandidates w attacker defender reach
              ((alookup w.guardians defender).getD []), candLE (dag, idx, g) c) ∧
      (resolveGuardInterception w attacker defender reach).2.2 =
        touch (setTurn w g { turnOf w g with reactionAvailable := false }) ∧
      (turnOf (resolveGuardInterception w attacker defender reach).2.2 g).reactionAvailable
        = false) := by
  unfold resolveGuardInterception
  dsimp only
  by_cases hgs : (alookup w.guardians defender).getD [] = []
  · simp [hgs]
  · rw [if_neg hgs]
    by_cases hcand : guardCandidates w attacker defender reach
        ((alookup w.guardians defender).getD []) = []
    · simp [hcand]
    · rw [if_neg hcand]
      rcases hsorted : (guardCandidates w attacker defender reach
          ((alookup w.guardians defender).getD [])).insertionSort candLE with _ | ⟨c, rest⟩
      · exfalso
        have hperm := List.perm_insertionSort candLE (guardCandidates w attacker defender reach
          ((alookup w.guardians defender).getD []))
        rw [hsorted] at hperm
        exact hcand (hperm.symm.eq_nil)
      · obtain ⟨hmem, hmin⟩ := sorted_head_min hsorted
        obtain ⟨halive, hdgp, hreact, hdag, hreach⟩ := mem_guardCandidates_props hmem
        unfold spendFirstReaction
        dsimp only
        rw [use_action_reaction_ok hreact]
        simp only []
        constructor
        · intro hnone
          simp at hnone
        · intro g hg
          have hgc : c.2.2 = g := by simpa using hg
          subst hgc
          refine ⟨by simp, halive, hdgp, hreact, ?_, by simp, by simp⟩
          exact ⟨c.1, hdag, hreach, c.2.1, by simpa using hmem, by simpa using hmin⟩

/-- The Scenario-C demo world: `Gd` guards `Vip`, adjacent to it and within
the attacker's reach. -/
def guardDemoWorld : World :=
  { characters :=
      [("Atk", { hp := 10, maxHp := 10 }),
       ("Vip", { hp := 10, maxHp := 10 }),
       ("Gd", { hp := 10, maxHp := 10 })],
    positions := [("Atk", (0, 0)), ("Vip", (1, 0)), ("Gd", (1, 1))],
    guardians := [("Vip", ["Gd"])] }

theorem guard_interception_correct_witness :
    (resolveGuardInterception guardDemoWorld "Atk" "Vip" 2).1 = "Gd" ∧
    isAliveGuard guardDemoWorld "Gd" = true ∧
    (∃ dgp, getDistanceStepsBetween guardDemoWorld "Gd" "Vip" = some dgp ∧ dgp ≤ 1) ∧
    (turnOf guardDemoWorld "Gd").reactionAvailable = true ∧
    (∃ dag, getDistanceStepsBetween guardDemoWorld "Atk" "Gd" = some dag ∧ dag ≤ 2 ∧
      ∃ idx, (dag, idx, "Gd") ∈ guardCandidates guardDemoWorld "Atk" "Vip" 2
          ((alookup guardDemoWorld.guardians "Vip").getD []) ∧
        ∀ c ∈ guardCandidates guardDemoWorld "Atk" "Vip" 2
            ((alookup guardDemoWorld.guardians "Vip").getD []), candLE (dag, idx, "Gd") c) ∧
    (resolveGuardInterception guardDemoWorld "Atk" "Vip" 2).2.2 =
      touch (setTurn guardDemoWorld "Gd"
        { turnOf guardDemoWorld "Gd" with reactionAvailable := false }) ∧
    (turnOf (resolveGuardInterception guardDemoWorld "Atk" "Vip" 2).2.2 "Gd").reactionAvailable
      = false :=
  (guard_interception_correct guardDemoWorld "Atk" "Vip" 2).2 "Gd" (by decide)

-- ---------------------------------------------------------------------------
-- C4: out-of-reach attacks mutate nothing beyond guard interception
-- ---------------------------------------------------------------------------

theorem use_action_preserves (w : World) (nm k : String) :
    (use_action w nm k).2.positions = w.positions ∧
    (use_action w nm k).2.characters = w.characters ∧
    (use_action w nm k).2.conditions = w.conditions := by
  unfold use_action
  split_ifs <;> simp [touch, setTurn] <;> split_ifs <;> simp [touch, setTurn]

theorem spendFirstReaction_preserves (l : List GuardCand) (w : World) :
    (spendFirstReaction w l).2.positions = w.positions ∧
    (spendFirstReaction w l).2.characters = w.characters ∧
    (spendFirstReaction w l).2.conditions = w.conditions := by
  induction l generalizing w with
  | nil => simp [spendFirstReaction]
  | cons c rest ih =>
      unfold spendFirstReaction
      dsimp only
      obtain ⟨h1, h2, h3⟩ := use_action_preserves w c.2.2 "reaction"
      split_ifs
      · exact ⟨h1, h2, h3⟩
      · obtain ⟨g1, g2, g3⟩ := ih (use_action w c.2.2 "reaction").2
        exact ⟨g1.trans h1, g2.trans h2, g3.trans h3⟩

/-- Guard interception only touches turn tokens (and the version): positions,
character sheets and status tables are untouched. -/
theorem guard_preserves (w : World) (attacker defender : String) (reach : Int) :
    (resolveGuardInterception w attacker defender reach).2.2.positions = w.positions ∧
    (resolveGuardInterception w attacker defender reach).2.2.characters = w.characters ∧
    (resolveGuardInterception w attacker defender reach).2.2.conditions = w.conditions := by
  unfold resolveGuardInterception
  dsimp only
  split_ifs
  · exact ⟨rfl, rfl, rfl⟩
  · exact ⟨rfl, rfl, rfl⟩
  · rcases hsp : spendFirstReaction w ((guardCandidates w attacker defender reach
        ((alookup w.guardians defender).getD [])).insertionSort candLE) with ⟨og, w2⟩
    obtain ⟨p1, p2, p3⟩ := spendFirstReaction_preserves ((guardCandidates w attacker defender
      reach ((alookup w.guardians defender).getD [])).insertionSort candLE) w
    rw [hsp] at p1 p2 p3
    cases og <;> simpa using ⟨p1, p2, p3⟩

/-- C4: once an attack has passed the participants, status, weapon-schema and
ownership gates, an undefined or too-large attacker↔final-defender distance
fails the attack with `out_of_reach` and returns exactly the world produced
by guard interception — in particular every position and every character
sheet (hit points included) is unchanged. -/
theorem attack_out_of_reach_no_mutation (w : World) (attacker defender weapon : String)
    (ra rb dmgTotal : Int)
    (hpart : ¬ (w.participants ≠ [] ∧
      (¬ w.participants.contains attacker ∨ ¬ w.participants.contains defender)))
    (hblock : blockedAction w attacker "attack" = false)
    (hds : ((alookup w.weaponDefs weapon).getD {}).defenseSkill.isSome)
    (hdm : ((alookup w.weaponDefs weapon).getD {}).damage.isSome)
    (hown : ¬ ((alookup ((alookup w.inventory attacker).getD []) weapon).getD 0 ≤ 0))
    (hfar : getDistanceStepsBetween
        (resolveGuardInterception w attacker defender (attackReach w weapon)).2.2 attacker
        (resolveGuardInterception w attacker defender (attackReach w weapon)).1 = none ∨
      (∃ d, getDistanceStepsBetween
          (resolveGuardInterception w attacker defender (attackReach w weapon)).2.2 attacker
          (resolveGuardInterception w attacker defender (attackReach w weapon)).1 = some d ∧
        attackReach w weapon < d)) :
    (attack_with_weapon w attacker defender weapon ra rb dmgTotal).ok = false ∧
    (attack_with_weapon w attacker defender weapon ra rb dmgTotal).errorType =
      some "out_of_reach" ∧
    (attack_with_weapon w attacker defender weapon ra rb dmgTotal).world =
      (resolveGuardInterception w attacker defender (attackReach w weapon)).2.2 ∧
    (attack_with_weapon w attacker defender weapon ra rb dmgTotal).world.positions =
      w.positions ∧
    (attack_with_weapon w attacker defender weapon ra rb dmgTotal).world.characters =
      w.characters := by
  obtain ⟨ds, hds'⟩ := Option.isSome_iff_exists.mp hds
  obtain ⟨de, hdm'⟩ := Option.isSome_iff_exists.mp hdm
  obtain ⟨g1, g2, _⟩ := guard_preserves w attacker defender (attackReach w weapon)
  unfold attack_with_weapon
  dsimp only
  rw [if_neg hpart, if_neg (by simp [hblock])]
  simp only [hds', hdm']
  rw [if_neg hown]
  rcases hfar with hnone | ⟨d, hsome, hlt⟩
  · simp only [hnone]
    exact ⟨by simp, by simp, by simp, g1, g2⟩
  · simp only [hsome]
    rw [if_pos hlt]
    exact ⟨by simp, by simp, by simp, g1, g2⟩

/-- A reach-1 sword (extended schema). -/
def swordDef : WeaponDef :=
  { reachSteps := some 1, skill := some "Fighting_Blade", defenseSkill := some "Dodge",
    damage := some "1d6", damageType := some "physical" }

/-- The Scenario-A demo world: attacker at (0,0) with a reach-1 weapon,
defender at (0,3) — distance 3. -/
def reachDemoWorld : World :=
  { characters := [("Atk", { hp := 10, maxHp := 10 }), ("Dfd", { hp := 10, maxHp := 10 })],
    positions := [("Atk", (0, 0)), ("Dfd", (0, 3))],
    inventory := [("Atk", [("sword", 1)])],
    weaponDefs := [("sword", swordDef)] }

theorem attack_out_of_reach_no_mutation_witness :
    (attack_with_weapon reachDemoWorld "Atk" "Dfd" "sword" 1 1 0).ok = false ∧
    (attack_with_weapon reachDemoWorld "Atk" "Dfd" "sword" 1 1 0).errorType =
      some "out_of_reach" ∧
    (attack_with_weapon reachDemoWorld "Atk" "Dfd" "sword" 1 1 0).world =
      (resolveGuardInterception reachDemoWorld "Atk" "Dfd"
        (attackReach reachDemoWorld "sword")).2.2 ∧
    (attack_with_weapon reachDemoWorld "Atk" "Dfd" "sword" 1 1 0).world.positions =
      reachDemoWorld.positions ∧
    (attack_with_weapon reachDemoWorld "Atk" "Dfd" "sword" 1 1 0).world.characters =
      reachDemoWorld.characters :=
  attack_out_of_reach_no_mutation reachDemoWorld "Atk" "Dfd" "sword" 1 1 0
    (by decide) (by decide) (by decide) (by decide) (by decide)
    (Or.inr ⟨3, by decide, by decide⟩)

-- ---------------------------------------------------------------------------
-- C7: the exposure resistance target and stress-gain scaling
-- ---------------------------------------------------------------------------

/-- The resistance target exactly as the spec sentence words it:
`max(skillValue, round((CON+POW)/2)) + bonus − stagePenalty`, with the
engine's skill value (the sheet's arts resist, falling back to the
`Arts_Resist` skill) and no lower clamp. -/
def specResistTargetClaim (w : World) (nm : String) (bonus : Int) : Int :=
  let st := charOf w nm
  let coc := st.coc.getD {}
  let conV := chGet coc.characteristics "CON" 50
  let powV := chGet coc.characteristics "POW" 50
  let halfSum := halfRoundEven (conV + powV)
  let sheet0 := coc.terra.arts.resist.getD 0
  let sheet := if sheet0 ≤ 0 then cocSkillValue w nm "Arts_Resist" else sheet0
  max sheet halfSum + bonus - stagePenaltyFor (ensureInfectionBlock w nm).1.stage

/-- The stress-gain rule as the spec sentence words it: extreme success ⇒
zero gain, any other success ⇒ half, failure ⇒ full, fumble ⇒ 1.5×, floored
at 1 whenever the scaling factor is nonzero and the rolled die is positive. -/
def specGainClaim (raw : Int) (level : String) (fumble : Bool) : Int :=
  if raw ≤ 0 then 0
  else if level = "extreme" then 0
  else
    let scaled :=
      if level = "hard" ∨ level = "regular" then raw / 2
      else if fumble then raw + raw / 2
      else raw
    max 1 scaled

def exposureDemoArts : ArtsBlock := { resist := some 5 }

def exposureDemoInfection : Infection := { stage := 3, stress := 80 }

def exposureDemoTerra : Terra :=
  { arts := exposureDemoArts, infection := some exposureDemoInfection }

/-- A stage-3 sheet with CON 1, POW 1 and sheet arts-resist 5. -/
def exposureDemoCoc : Coc :=
  { characteristics := [("CON", 1), ("POW", 1)], terra := exposureDemoTerra }

def exposureDemoWorld : World :=
  { characters := [("X", { hp := 10, maxHp := 10, coc := some exposureDemoCoc })] }

/-- C7 counterexample: at CON 1, POW 1, sheet resist 5 and stage 3 the spec's
formula `max(5, 1) + 0 − 30` yields −25, but the engine clamps the
resistance target below at 1, so the check is rolled against 1, not −25. -/
theorem infection_resist_target_counterexample :
    (infectionResistTarget exposureDemoWorld "X" 0).1 = 1 ∧
    specResistTargetClaim exposureDemoWorld "X" 0 = -25 ∧
    (infectionResistTarget exposureDemoWorld "X" 0).1 ≠
      specResistTargetClaim exposureDemoWorld "X" 0 := by
  decide

theorem exposureAdjust_nonneg (raw : Int) (s : Bool) (lv : String) (fb : Bool) :
    0 ≤ exposureAdjust raw s lv fb := by
  unfold exposureAdjust
  dsimp only
  split_ifs <;> omega

@[simp] theorem skillCheck_target (t roll : Int) : (skillCheck t roll).target = max 1 t := by
  simp only [skillCheck]
  split_ifs <;> rfl

/-- The inline scaling block of `apply_exposure` agrees with the spec's
outcome table on every check result. -/
theorem exposureAdjust_eq_specGain (t roll raw : Int) (fb : Bool) :
    exposureAdjust raw (skillCheck t roll).success (skillCheck t roll).level fb =
      specGainClaim raw (skillCheck t roll).level fb := by
  unfold skillCheck
  dsimp only
  split_ifs with h1 h2 h3 <;>
    · dsimp only
      unfold exposureAdjust specGainClaim
      simp +decide <;> omega

theorem normalizeInfection_idem (inf : Infection) :
    normalizeInfection (normalizeInfection inf) = normalizeInfection inf := by
  cases inf with
  | mk stage stress cd sf oc =>
      unfold normalizeInfection
      dsimp only
      simp only [Infection.mk.injEq, and_true]
      unfold infectionStageFloor
      split_ifs <;> omega

/-- The sheet rewrite `_ensure_infection_block` performs: only
`coc.terra.infection` changes. -/
def ensureCocUpdate (st : CharSheet) : CharSheet :=
  let coc := st.coc.getD {}
  let coc2 := { coc with terra := { coc.terra with infection := some (normalizeInfection (coc.terra.infection.getD {})) } }
  { st with coc := some coc2 }

theorem charOf_ensure (w : World) (nm : String) :
    charOf (ensureInfectionBlock w nm).2 nm = ensureCocUpdate (charOf w nm) := by
  simp [ensureInfectionBlock, setInfection, ensureCocUpdate]

theorem ensureCocUpdate_chars (st : CharSheet) :
    ((ensureCocUpdate st).coc.getD {}).characteristics = (st.coc.getD {}).characteristics := by
  cases h : st.coc <;> simp [ensureCocUpdate, h]

theorem ensureCocUpdate_skills (st : CharSheet) :
    ((ensureCocUpdate st).coc.getD {}).skills = (st.coc.getD {}).skills := by
  cases h : st.coc <;> simp [ensureCocUpdate, h]

theorem ensureCocUpdate_arts (st : CharSheet) :
    ((ensureCocUpdate st).coc.getD {}).terra.arts = (st.coc.getD {}).terra.arts := by
  cases h : st.coc <;> simp [ensureCocUpdate, h]

theorem ensureCocUpdate_infection (st : CharSheet) :
    ((ensureCocUpdate st).coc.getD {}).terra.infection =
      some (normalizeInfection ((st.coc.getD {}).terra.infection.getD {})) := by
  cases h : st.coc <;> simp [ensureCocUpdate, h]

theorem cocSkillValue_ensure (w : World) (nm s : String) :
    cocSkillValue (ensureInfectionBlock w nm).2 nm s = cocSkillValue w nm s := by
  unfold cocSkillValue
  dsimp only
  rw [charOf_ensure, ensureCocUpdate_chars, ensureCocUpdate_skills]

/-- Normalizing twice reads back the once-normalized block. -/
theorem ensure_fst_ensure (w : World) (nm : String) :
    (ensureInfectionBlock (ensureInfectionBlock w nm).2 nm).1 =
      (ensureInfectionBlock w nm).1 := by
  show normalizeInfection _ = normalizeInfection _
  rw [charOf_ensure, ensureCocUpdate_infection]
  simp [normalizeInfection_idem]

/-- Re-running the resist-target computation after the normalization pass of
`_ensure_infection_block` gives the same target. -/
theorem infectionResistTarget_ensure (w : World) (nm : String) (bonus : Int) :
    (infectionResistTarget (ensureInfectionBlock w nm).2 nm bonus).1 =
      (infectionResistTarget w nm bonus).1 := by
  unfold infectionResistTarget
  dsimp only
  rw [charOf_ensure, ensureCocUpdate_chars, ensureCocUpdate_arts, cocSkillValue_ensure,
    ensure_fst_ensure]

/-- C7 amended: every exposure application rolls its resistance check against
`max(1, max(skillValue, round((CON+POW)/2)) + bonus − stagePenalty)` — the
spec's target clamped below at 1 — and the recorded stress gain follows the
spec's outcome table exactly (extreme 0, other success half, failure full,
fumble 1.5×, floored at 1 for a positive die). -/
theorem apply_exposure_target_and_gain (w : World) (nm level : String)
    (diceExpr : Option String) (bonus : Int) (rolls : ExpoRolls) :
    (apply_exposure w nm level diceExpr bonus rolls).resistTarget =
      max 1 (specResistTargetClaim w nm bonus) ∧
    (apply_exposure w nm level diceExpr bonus rolls).adjustedStress =
      specGainClaim rolls.stressTotal
        (apply_exposure w nm level diceExpr bonus rolls).resistLevel
        (apply_exposure w nm level diceExpr bonus rolls).resistFumble := by
  unfold apply_exposure
  dsimp only
  rw [infectionResistTarget_ensure]
  constructor
  · rw [skillCheck_target]
    have : (infectionResistTarget w nm bonus).1 = max 1 (specResistTargetClaim w nm bonus) := rfl
    rw [this]
    omega
  · rw [max_eq_right (exposureAdjust_nonneg _ _ _ _)]
    exact exposureAdjust_eq_specGain _ _ _ _

-- ---------------------------------------------------------------------------
-- C5 / C6: congruence and mp-preservation lemmas for `cast_arts`
-- ---------------------------------------------------------------------------

theorem charOf_congr {w1 w2 : World} (h : w1.characters = w2.characters) (nm : String) :
    charOf w1 nm = charOf w2 nm := by
  simp [charOf, h]

theorem castGuardPhase_characters (w : World) (attacker : String) (ad : ArtDef) (tgt : String) :
    (castGuardPhase w attacker ad tgt).2.2.characters = w.characters := by
  unfold castGuardPhase
  split_ifs
  · exact (guard_preserves w attacker tgt ad.rangeSteps).2.1
  · rfl

theorem cocSkillValue_congr {w1 w2 : World} (h : w1.characters = w2.characters) (nm s : String) :
    cocSkillValue w1 nm s = cocSkillValue w2 nm s := by
  unfold cocSkillValue
  rw [charOf_congr h]

theorem castEffSpent_congr {w1 w2 : World} (h : w1.characters = w2.characters)
    (a : String) (ad : ArtDef) (m : Option Int) :
    castEffSpent w1 a ad m = castEffSpent w2 a ad m := by
  unfold castEffSpent
  rw [charOf_congr h]

theorem spend_mp_fst_congr {w1 w2 : World} (h : w1.characters = w2.characters)
    (nm : String) (a : Int) :
    (spend_mp w1 nm a).1 = (spend_mp w2 nm a).1 := by
  unfold spend_mp
  dsimp only
  rw [charOf_congr h]
  split_ifs <;> rfl

theorem ensure_fst_congr {w1 w2 : World} (h : w1.characters = w2.characters) (nm : String) :
    (ensureInfectionBlock w1 nm).1 = (ensureInfectionBlock w2 nm).1 := by
  unfold ensureInfectionBlock
  dsimp only
  rw [charOf_congr h]

theorem mp_touch (w : World) (nm : String) :
    (charOf (touch w) nm).mp = (charOf w nm).mp := rfl

theorem mp_add_status (w : World) (n s : String) (d : Option Int) (k : String)
    (src : Option String) (nm : String) :
    (charOf (add_status w n s d k src) nm).mp = (charOf w nm).mp := rfl

theorem mp_remove_status (w : World) (n s nm : String) :
    (charOf (remove_status w n s) nm).mp = (charOf w nm).mp := rfl

theorem mp_setChar_same (w : World) (n : String) (st : CharSheet) (nm : String)
    (h : st.mp = (charOf w n).mp) :
    (charOf (setChar w n st) nm).mp = (charOf w nm).mp := by
  by_cases hn : n = nm
  · subst hn
    simp [h]
  · rw [charOf_setChar_ne _ _ _ _ hn]

theorem mp_damage (w : World) (n : String) (amt : Int) (nm : String) :
    (charOf (damage w n amt).world nm).mp = (charOf w nm).mp := by
  unfold damage enterDying die
  dsimp only
  by_cases hn : n = nm
  · subst hn
    split_ifs <;> simp
  · split_ifs <;> simp [charOf_setChar_ne _ _ _ _ hn]

theorem mp_heal (w : World) (n : String) (amt : Int) (nm : String) :
    (charOf (heal w n amt) nm).mp = (charOf w nm).mp := by
  unfold heal
  dsimp only
  by_cases hn : n = nm
  · subst hn
    split_ifs <;> simp
  · split_ifs <;> simp [charOf_setChar_ne _ _ _ _ hn]

theorem mp_setInfection (w : World) (n : String) (inf : Infection) (nm : String) :
    (charOf (setInfection w n inf) nm).mp = (charOf w nm).mp := by
  unfold setInfection
  dsimp only
  by_cases hn : n = nm
  · subst hn
    simp
  · rw [charOf_setChar_ne _ _ _ _ hn]

theorem mp_ensure (w : World) (n nm : String) :
    (charOf (ensureInfectionBlock w n).2 nm).mp = (charOf w nm).mp := by
  unfold ensureInfectionBlock
  dsimp only
  exact mp_setInfection w n _ nm

theorem mp_infectionResistTarget (w : World) (n : String) (b : Int) (nm : String) :
    (charOf (infectionResistTarget w n b).2 nm).mp = (charOf w nm).mp := by
  unfold infectionResistTarget
  dsimp only
  exact mp_ensure w n nm

theorem mp_recompute (w : World) (n : String) (hz : (charOf w n).mp = some 0) (nm : String) :
    (charOf (recompute_coc_derived w n) nm).mp = (charOf w nm).mp := by
  unfold recompute_coc_derived
  dsimp only
  rcases hc : (charOf w n).coc with _ | coc
  · rfl
  · by_cases hn : n = nm
    · subst hn
      rw [mp_touch]
      apply mp_setChar_same
      dsimp only
      rw [hz]
      have hcap : (0 : Int) ≤ max 0 (Int.fdiv (chGet coc.characteristics "POW" 0) 5) :=
        le_max_left 0 _
      simp only [Option.getD_some]
      rw [min_eq_right hcap]
      simp
    · simp [charOf_setChar_ne _ _ _ _ hn]

theorem mp_advance (w : World) (n c : String) (hz : (charOf w n).mp = some 0) (nm : String) :
    (charOf (advance_infection_stage w n c).2 nm).mp = (charOf w nm).mp := by
  unfold advance_infection_stage
  dsimp only
  split_ifs
  · exact mp_ensure w n nm
  all_goals {
    rw [mp_touch]
    rw [mp_recompute _ n _ nm]
    · rw [mp_setChar_same, mp_ensure]
      rw [mp_ensure]
    · rw [mp_setChar_same, mp_ensure]
      · exact hz
      · rw [mp_ensure] }

theorem mp_handleFlares (w : World) (nm : String) (before after : Int) (rolls : ExpoRolls)
    (hz : (charOf w nm).mp = some 0) (x : String) :
    (charOf (handleFlares w nm before after rolls).2.2 x).mp = (charOf w x).mp := by
  unfold handleFlares
  dsimp only
  split_ifs <;>
    simp only [mp_setInfection, mp_ensure, mp_damage, mp_add_status, mp_touch, mp_advance, hz]

theorem mp_apply_exposure (w : World) (nm level : String) (de : Option String) (bonus : Int)
    (rolls : ExpoRolls) (hz : (charOf w nm).mp = some 0) (x : String) :
    (charOf (apply_exposure w nm level de bonus rolls).world x).mp = (charOf w x).mp := by
  unfold apply_exposure
  dsimp only
  simp only [mp_touch, mp_setInfection, mp_ensure, mp_infectionResistTarget,
    mp_handleFlares, hz]

theorem cocSkillValue_coc_congr {w1 w2 : World} (nm s : String)
    (h : (charOf w1 nm).coc = (charOf w2 nm).coc) :
    cocSkillValue w1 nm s = cocSkillValue w2 nm s := by
  unfold cocSkillValue
  rw [h]

theorem ensure_fst_coc_congr {w1 w2 : World} (nm : String)
    (h : (charOf w1 nm).coc = (charOf w2 nm).coc) :
    (ensureInfectionBlock w1 nm).1 = (ensureInfectionBlock w2 nm).1 := by
  unfold ensureInfectionBlock
  dsimp only
  rw [h]

theorem mp_attackApplyDamage (w : World) (d : String) (t : Int) (ty : String)
    (sh : CharSheet) (x : String) :
    (charOf (attackApplyDamage w d t ty sh).1 x).mp = (charOf w x).mp := by
  unfold attackApplyDamage
  dsimp only
  exact mp_damage w d _ x

theorem mp_castControlPhase (w : World) (a : String) (ad : ArtDef) (t : String)
    (oc : Bool) (eff : Int) (ov : Option Int) (oe : Option String) (s : Bool) (x : String) :
    (charOf (castControlPhase w a ad t oc eff ov oe s).world x).mp = (charOf w x).mp := by
  unfold castControlPhase
  dsimp only
  split_ifs <;> simp [mp_touch, mp_add_status]

theorem mp_castHealPhase (w : World) (a : String) (ad : ArtDef) (t : String)
    (rolls : CastRolls) (oc : Bool) (eff : Int) (ov : Option Int) (oe : Option String)
    (s : Bool) (x : String) :
    (charOf (castHealPhase w a ad t rolls oc eff ov oe s).world x).mp = (charOf w x).mp := by
  unfold castHealPhase
  dsimp only
  split_ifs <;> simp [mp_castControlPhase, mp_heal]

theorem mp_castResolve (w : World) (a : String) (ad : ArtDef) (t : String)
    (rolls : CastRolls) (oc : Bool) (eff : Int) (ov : Option Int) (oe : Option String)
    (x : String) :
    (charOf (castResolve w a ad t rolls oc eff ov oe).world x).mp = (charOf w x).mp := by
  unfold castResolve
  dsimp only
  split_ifs <;> simp [mp_castHealPhase, mp_attackApplyDamage]

theorem oc_castControlPhase (w : World) (a : String) (ad : ArtDef) (t : String)
    (oc : Bool) (eff : Int) (ov : Option Int) (oe : Option String) (s : Bool) :
    (castControlPhase w a ad t oc eff ov oe s).overcharge = oc := by
  unfold castControlPhase
  dsimp only
  split_ifs <;> rfl

theorem ov_castControlPhase (w : World) (a : String) (ad : ArtDef) (t : String)
    (oc : Bool) (eff : Int) (ov : Option Int) (oe : Option String) (s : Bool) :
    (castControlPhase w a ad t oc eff ov oe s).atkValueOverride = ov := by
  unfold castControlPhase
  dsimp only
  split_ifs <;> rfl

theorem oe_castControlPhase (w : World) (a : String) (ad : ArtDef) (t : String)
    (oc : Bool) (eff : Int) (ov : Option Int) (oe : Option String) (s : Bool) :
    (castControlPhase w a ad t oc eff ov oe s).overchargeExposureExpr = oe := by
  unfold castControlPhase
  dsimp only
  split_ifs <;> rfl

theorem oc_castHealPhase (w : World) (a : String) (ad : ArtDef) (t : String)
    (rolls : CastRolls) (oc : Bool) (eff : Int) (ov : Option Int) (oe : Option String)
    (s : Bool) :
    (castHealPhase w a ad t rolls oc eff ov oe s).overcharge = oc := by
  unfold castHealPhase
  dsimp only
  split_ifs <;> simp [oc_castControlPhase]

theorem ov_castHealPhase (w : World) (a : String) (ad : ArtDef) (t : String)
    (rolls : CastRolls) (oc : Bool) (eff : Int) (ov : Option Int) (oe : Option String)
    (s : Bool) :
    (castHealPhase w a ad t rolls oc eff ov oe s).atkValueOverride = ov := by
  unfold castHealPhase
  dsimp only
  split_ifs <;> simp [ov_castControlPhase]

theorem oe_castHealPhase (w : World) (a : String) (ad : ArtDef) (t : String)
    (rolls : CastRolls) (oc : Bool) (eff : Int) (ov : Option Int) (oe : Option String)
    (s : Bool) :
    (castHealPhase w a ad t rolls oc eff ov oe s).overchargeExposureExpr = oe := by
  unfold castHealPhase
  dsimp only
  split_ifs <;> simp [oe_castControlPhase]

theorem oc_castResolve (w : World) (a : String) (ad : ArtDef) (t : String)
    (rolls : CastRolls) (oc : Bool) (eff : Int) (ov : Option Int) (oe : Option String) :
    (castResolve w a ad t rolls oc eff ov oe).overcharge = oc := by
  unfold castResolve
  dsimp only
  split_ifs <;> simp [oc_castHealPhase]

theorem ov_castResolve (w : World) (a : String) (ad : ArtDef) (t : String)
    (rolls : CastRolls) (oc : Bool) (eff : Int) (ov : Option Int) (oe : Option String) :
    (castResolve w a ad t rolls oc eff ov oe).atkValueOverride = ov := by
  unfold castResolve
  dsimp only
  split_ifs <;> simp [ov_castHealPhase]

theorem oe_castResolve (w : World) (a : String) (ad : ArtDef) (t : String)
    (rolls : CastRolls) (oc : Bool) (eff : Int) (ov : Option Int) (oe : Option String) :
    (castResolve w a ad t rolls oc eff ov oe).overchargeExposureExpr = oe := by
  unfold castResolve
  dsimp only
  split_ifs <;> simp [oe_castHealPhase]

/-- C5: for every cast that passes the status, participant, art-validation,
range and line-of-sight gates, with the caster's MP present and nonnegative,
the overcharge fallback fires exactly when the ordinary MP payment fails and
the art's configured cost is positive; after overcharge the caster's MP in
the final world is exactly zero, the recorded attack-value override is the
caster's casting skill minus the fixed penalty 20 floored above zero
(`max 1 (skill - 20)`), and the stress-die expression handed to the exposure
subsystem is `"1d4"` escalated once per recorded overcharge step. -/
theorem cast_arts_overcharge_correct
    (w : World) (attacker art tgt : String) (mpSpent : Option Int) (rolls : CastRolls)
    (ad : ArtDef) (m d : Int)
    (hblock : ¬ blockedAction w attacker "cast")
    (htgt : ¬ tgt = "")
    (hpart1 : ¬ (w.participants ≠ [] ∧ ¬ w.participants.contains attacker))
    (hpart2 : ¬ (w.participants ≠ [] ∧ (! w.participants.contains tgt) = true))
    (had : alookup w.artsDefs art = some ad)
    (hcs : ¬ (ad.castSkill = "" ∨ ad.resist = ""))
    (hdist : getDistanceStepsBetween (castGuardPhase w attacker ad tgt).2.2 attacker
      (castGuardPhase w attacker ad tgt).1 = some d)
    (hd : ¬ d > ad.rangeSteps)
    (hlos : ¬ (ad.tags.contains "line-of-sight" ∧
      (alookup (castGuardPhase w attacker ad tgt).2.2.cover
        (castGuardPhase w attacker ad tgt).1).getD "none" = "total"))
    (hmp : (charOf w attacker).mp = some m) (hm : 0 ≤ m) :
    ((cast_arts w attacker art (some tgt) mpSpent rolls).overcharge = true ↔
      ((spend_mp (castGuardPhase w attacker ad tgt).2.2 attacker
          (castEffSpent (castGuardPhase w attacker ad tgt).2.2 attacker ad mpSpent)).1 = false ∧
        ad.mpCost > 0)) ∧
    ((cast_arts w attacker art (some tgt) mpSpent rolls).overcharge = true →
      (charOf (cast_arts w attacker art (some tgt) mpSpent rolls).world attacker).mp = some 0) ∧
    ((cast_arts w attacker art (some tgt) mpSpent rolls).overcharge = true →
      (cast_arts w attacker art (some tgt) mpSpent rolls).atkValueOverride =
        some (max 1 (cocSkillValue (castGuardPhase w attacker ad tgt).2.2 attacker
          ad.castSkill - 20))) ∧
    ((cast_arts w attacker art (some tgt) mpSpent rolls).overcharge = true →
      (cast_arts w attacker art (some tgt) mpSpent rolls).overchargeExposureExpr =
        some (iterStepExpr (max 0 (ensureInfectionBlock (castGuardPhase w attacker ad tgt).2.2
          attacker).1.overchargeStep).toNat "1d4")) := by
  have hchars := castGuardPhase_characters w attacker ad tgt
  have hmpg : (charOf (castGuardPhase w attacker ad tgt).2.2 attacker).mp = some m := by
    rw [charOf_congr hchars]
    exact hmp
  unfold cast_arts
  dsimp only
  rw [if_neg hblock]
  simp only [if_neg htgt]
  rw [if_neg hpart1]
  simp only [Option.map_some', Option.getD_some]
  rw [if_neg hpart2, had]
  dsimp only
  rw [if_neg hcs]
  rw [hdist]
  dsimp only
  rw [if_neg hd, if_neg hlos]
  unfold castPayAndResolve
  dsimp only
  rcases hsp : (spend_mp (castGuardPhase w attacker ad tgt).2.2 attacker
      (castEffSpent (castGuardPhase w attacker ad tgt).2.2 attacker ad mpSpent)).1 with _ | _
  · -- payment failed
    rw [if_pos (by simp)]
    by_cases hc : ad.mpCost > 0
    · rw [if_pos hc]
      simp only [hmpg, Option.getD_some]
      have hcoc : ∀ w1 : World,
          (charOf w1 attacker).coc = (charOf (castGuardPhase w attacker ad tgt).2.2 attacker).coc →
          some (if max 0 (cocSkillValue w1 attacker ad.castSkill - 20) ≤ 0 then 1
              else max 0 (cocSkillValue w1 attacker ad.castSkill - 20)) =
            some (max 1 (cocSkillValue (castGuardPhase w attacker ad tgt).2.2 attacker
              ad.castSkill - 20)) := by
        intro w1 h1
        rw [cocSkillValue_coc_congr attacker ad.castSkill h1]
        simp only [Option.some.injEq]
        split_ifs <;> omega
      by_cases hm0 : m > 0
      · simp only [if_pos hm0]
        have hcsc : (charOf (setChar (castGuardPhase w attacker ad tgt).2.2 attacker
            { charOf (castGuardPhase w attacker ad tgt).2.2 attacker with mp := some 0 })
            attacker).coc = (charOf (castGuardPhase w attacker ad tgt).2.2 attacker).coc := by
          simp
        refine ⟨by simp [oc_castResolve, hc], ?_, ?_, ?_⟩
        · intro _
          have hz1 : (charOf (setChar (castGuardPhase w attacker ad tgt).2.2 attacker
              { charOf (castGuardPhase w attacker ad tgt).2.2 attacker with mp := some 0 })
              attacker).mp = some 0 := by simp
          rw [mp_castResolve, mp_apply_exposure _ _ _ _ _ _ (by rw [mp_ensure]; exact hz1),
            mp_ensure]
          exact hz1
        · intro _
          rw [ov_castResolve]
          exact hcoc _ hcsc
        · intro _
          rw [oe_castResolve, ensure_fst_coc_congr attacker hcsc]
      · simp only [if_neg hm0]
        have hmz : m = 0 := le_antisymm (not_lt.mp hm0) hm
        have hz1 : (charOf (castGuardPhase w attacker ad tgt).2.2 attacker).mp = some 0 := by
          rw [hmpg, hmz]
        refine ⟨by simp [oc_castResolve, hc], ?_, ?_, ?_⟩
        · intro _
          rw [mp_castResolve, mp_apply_exposure _ _ _ _ _ _ (by rw [mp_ensure]; exact hz1),
            mp_ensure]
          exact hz1
        · intro _
          rw [ov_castResolve]
          exact hcoc _ rfl
        · intro _
          rw [oe_castResolve]
    · rw [if_neg hc]
      refine ⟨by simp [hc], ?_, ?_, ?_⟩ <;> · intro h; simp at h
  · -- payment succeeded
    rw [if_neg (by simp)]
    refine ⟨by simp [oc_castResolve], ?_, ?_, ?_⟩ <;>
      · intro h
        rw [oc_castResolve] at h
        simp at h

/-- A fixed-cost art whose cost (3) exceeds the demo caster's MP (1). -/
def overchargeArtDef : ArtDef :=
  { castSkill := "Arts_Offense", resist := "Arts_Resist", rangeSteps := 5, mpCost := 3 }

/-- Demo world for the overcharge fallback: caster `C` with MP 1, target `T`
one step away. -/
def overchargeDemoWorld : World :=
  { characters := [("C", { hp := 10, maxHp := 10, mp := some 1 }),
                   ("T", { hp := 10, maxHp := 10 })],
    positions := [("C", (0, 0)), ("T", (1, 0))],
    artsDefs := [("bolt", overchargeArtDef)] }

/-- Concrete run of the C5 theorem: on the demo world the overcharge
fallback fires and drains the caster's MP to zero. -/
theorem cast_arts_overcharge_correct_witness :
    (cast_arts overchargeDemoWorld "C" "bolt" (some "T") none {}).overcharge = true ∧
    (charOf (cast_arts overchargeDemoWorld "C" "bolt" (some "T") none {}).world "C").mp =
      some 0 := by
  have h := cast_arts_overcharge_correct overchargeDemoWorld "C" "bolt" "T" none {}
    overchargeArtDef 1 1 (by decide) (by decide) (by decide) (by decide) (by decide)
    (by decide) (by decide) (by decide) (by decide) (by decide) (by decide)
  have hoc := h.1.mpr ⟨by decide, by decide⟩
  exact ⟨hoc, h.2.1 hoc⟩

/-- An art whose damage formula keeps the unsupported token `POW` after
substitution (the substitution whitelist excludes `POW`). -/
def castInvalidArtDef : ArtDef :=
  { castSkill := "Arts_Offense", resist := "Arts_Resist", rangeSteps := 5, mpCost := 2,
    damage := "1d6+POW" }

/-- Demo world for the invalid-formula cast: caster `C` with MP 5, target `T`
one step away. -/
def castInvalidDemoWorld : World :=
  { characters := [("C", { hp := 10, maxHp := 10, mp := some 5 }),
                   ("T", { hp := 10, maxHp := 10 })],
    positions := [("C", (0, 0)), ("T", (1, 0))],
    artsDefs := [("zap", castInvalidArtDef)] }

/-- Attack roll 1 (extreme success at skill 40), defense roll 100 (fail): the
caster wins the contest, so the damage block is reached. -/
def castInvalidDemoRolls : CastRolls := { atkRoll := 1, defRoll := 100 }

/-- C6 counterexample: a cast whose damage formula still contains an
alphabetic token after substitution does fail closed with
`art_damage_expr_invalid`, but the MP payment already applied is NOT rolled
back — the caster's MP drops from 5 to 3 in the returned world, so the
failing cast does leave a partial application behind. -/
theorem cast_invalid_expr_partial_application :
    (cast_arts castInvalidDemoWorld "C" "zap" (some "T") none castInvalidDemoRolls).ok
      = false ∧
    (cast_arts castInvalidDemoWorld "C" "zap" (some "T") none castInvalidDemoRolls).errorType
      = some "art_damage_expr_invalid" ∧
    (charOf castInvalidDemoWorld "C").mp = some 5 ∧
    (charOf (cast_arts castInvalidDemoWorld "C" "zap" (some "T") none
      castInvalidDemoRolls).world "C").mp = some 3 := by
  decide

/-- The world `cast_arts` holds right after a successful MP payment (guard
interception plus `spend_mp`). -/
def castPostPaymentWorld (w : World) (attacker : String) (ad : ArtDef) (tgt : String)
    (mpSpent : Option Int) : World :=
  (spend_mp (castGuardPhase w attacker ad tgt).2.2 attacker
    (castEffSpent (castGuardPhase w attacker ad tgt).2.2 attacker ad mpSpent)).2

/-- The world the heal block of a successful contest receives: the
post-payment world, with the damage block's mutation applied whenever a
damage formula is present and valid. -/
def castHealInputWorld (w : World) (attacker : String) (ad : ArtDef) (tgt : String)
    (mpSpent : Option Int) (rolls : CastRolls) : World :=
  if ¬ ad.damage = "" ∧
      artExprInvalid (replaceArtTokens (castPostPaymentWorld w attacker ad tgt mpSpent)
        attacker ad.damage) = false then
    (attackApplyDamage (castPostPaymentWorld w attacker ad tgt mpSpent)
      (castGuardPhase w attacker ad tgt).1 rolls.dmgTotal (strLower ad.damageType)
      (charOf (castPostPaymentWorld w attacker ad tgt mpSpent)
        (castGuardPhase w attacker ad tgt).1)).1
  else castPostPaymentWorld w attacker ad tgt mpSpent

/-- The world the control block receives: the heal block's input world, with
the heal applied whenever a heal formula is present and valid. -/
def castControlInputWorld (w : World) (attacker : String) (ad : ArtDef) (tgt : String)
    (mpSpent : Option Int) (rolls : CastRolls) : World :=
  if ¬ ad.heal = "" ∧
      artExprInvalid (replaceArtTokens (castHealInputWorld w attacker ad tgt mpSpent rolls)
        attacker ad.heal) = false then
    heal (castHealInputWorld w attacker ad tgt mpSpent rolls)
      (castGuardPhase w attacker ad tgt).1 (max 0 rolls.healTotal)
  else castHealInputWorld w attacker ad tgt mpSpent rolls

theorem castResolve_dmg_err (w : World) (a : String) (ad : ArtDef) (t : String)
    (rolls : CastRolls) (oc : Bool) (eff : Int) (ov : Option Int) (oe : Option String)
    (hs : attackRunCheckOrContest w a t ad.castSkill ad.resist ov
      rolls.atkRoll rolls.defRoll = true)
    (h1 : ¬ ad.damage = "")
    (h2 : artExprInvalid (replaceArtTokens w a ad.damage) = true) :
    (castResolve w a ad t rolls oc eff ov oe).ok = false ∧
    (castResolve w a ad t rolls oc eff ov oe).errorType = some "art_damage_expr_invalid" ∧
    (castResolve w a ad t rolls oc eff ov oe).world = w := by
  unfold castResolve
  dsimp only
  rw [hs, if_pos ⟨rfl, h1⟩, if_pos h2]
  exact ⟨rfl, rfl, rfl⟩

theorem castResolve_to_heal (w : World) (a : String) (ad : ArtDef) (t : String)
    (rolls : CastRolls) (oc : Bool) (eff : Int) (ov : Option Int) (oe : Option String)
    (hs : attackRunCheckOrContest w a t ad.castSkill ad.resist ov
      rolls.atkRoll rolls.defRoll = true)
    (hnd : ¬ (¬ ad.damage = "" ∧ artExprInvalid (replaceArtTokens w a ad.damage) = true)) :
    castResolve w a ad t rolls oc eff ov oe =
      castHealPhase
        (if ¬ ad.damage = "" ∧ artExprInvalid (replaceArtTokens w a ad.damage) = false then
          (attackApplyDamage w t rolls.dmgTotal (strLower ad.damageType) (charOf w t)).1
        else w) a ad t rolls oc eff ov oe true := by
  unfold castResolve
  dsimp only
  rw [hs]
  by_cases hdm : ad.damage = ""
  · rw [if_neg (by simp [hdm]), if_neg (by simp [hdm])]
  · rcases hval : artExprInvalid (replaceArtTokens w a ad.damage) with _ | _
    · rw [if_pos ⟨rfl, hdm⟩, if_neg (by simp), if_pos ⟨hdm, rfl⟩]
    · exact absurd ⟨hdm, hval⟩ hnd

theorem castHealPhase_expr_err (w : World) (a : String) (ad : ArtDef) (t : String)
    (rolls : CastRolls) (oc : Bool) (eff : Int) (ov : Option Int) (oe : Option String)
    (h3 : ¬ ad.heal = "")
    (h4 : artExprInvalid (replaceArtTokens w a ad.heal) = true) :
    (castHealPhase w a ad t rolls oc eff ov oe true).ok = false ∧
    (castHealPhase w a ad t rolls oc eff ov oe true).errorType
      = some "art_heal_expr_invalid" ∧
    (castHealPhase w a ad t rolls oc eff ov oe true).world = w := by
  unfold castHealPhase
  dsimp only
  rw [if_pos ⟨rfl, h3⟩, if_pos h4]
  exact ⟨rfl, rfl, rfl⟩

theorem castHealPhase_to_control (w : World) (a : String) (ad : ArtDef) (t : String)
    (rolls : CastRolls) (oc : Bool) (eff : Int) (ov : Option Int) (oe : Option String)
    (hnh : ¬ (¬ ad.heal = "" ∧ artExprInvalid (replaceArtTokens w a ad.heal) = true)) :
    castHealPhase w a ad t rolls oc eff ov oe true =
      castControlPhase
        (if ¬ ad.heal = "" ∧ artExprInvalid (replaceArtTokens w a ad.heal) = false then
          heal w t (max 0 rolls.healTotal)
        else w) a ad t oc eff ov oe true := by
  unfold castHealPhase
  dsimp only
  by_cases hh : ad.heal = ""
  · rw [if_neg (by simp [hh]), if_neg (by simp [hh])]
  · rcases hval : artExprInvalid (replaceArtTokens w a ad.heal) with _ | _
    · rw [if_pos ⟨rfl, hh⟩, if_neg (by simp), if_pos ⟨hh, rfl⟩]
    · exact absurd ⟨hh, hval⟩ hnh

theorem castControlPhase_dur_err (w : World) (a : String) (ad : ArtDef) (t : String)
    (oc : Bool) (eff : Int) (ov : Option Int) (oe : Option String)
    (h4 : ¬ ad.controlEffect = "")
    (h5 : durExprInvalid (replaceArtTokens w a
      (if ad.controlDuration = "" then "1" else ad.controlDuration)) = true) :
    (castControlPhase w a ad t oc eff ov oe true).ok = false ∧
    (castControlPhase w a ad t oc eff ov oe true).errorType
      = some "art_duration_expr_invalid" ∧
    (castControlPhase w a ad t oc eff ov oe true).world = w := by
  unfold castControlPhase
  dsimp only
  rw [if_pos ⟨rfl, h4⟩, if_pos h5]
  exact ⟨rfl, rfl, rfl⟩

/-- C6 (amended): for every cast that passes the gates, whose MP payment
succeeds and whose contest succeeds, each of the three formula blocks fails
closed with its own error whenever its substituted formula is still invalid
— an invalid damage formula yields `art_damage_expr_invalid`, an invalid
heal formula yields `art_heal_expr_invalid` (once the damage block raised no
error), an invalid control-duration formula yields
`art_duration_expr_invalid` (once neither earlier block raised an error) —
and in each case the returned world is exactly the world accumulated so far
(post-payment, post-damage, or post-heal respectively): the text is never
evaluated, but the MP payment and any damage or heal already applied by the
same cast persist rather than being rolled back. -/
theorem cast_arts_invalid_expr_amended
    (w : World) (attacker art tgt : String) (mpSpent : Option Int) (rolls : CastRolls)
    (ad : ArtDef) (d : Int)
    (hblock : ¬ blockedAction w attacker "cast")
    (htgt : ¬ tgt = "")
    (hpart1 : ¬ (w.participants ≠ [] ∧ ¬ w.participants.contains attacker))
    (hpart2 : ¬ (w.participants ≠ [] ∧ (! w.participants.contains tgt) = true))
    (had : alookup w.artsDefs art = some ad)
    (hcs : ¬ (ad.castSkill = "" ∨ ad.resist = ""))
    (hdist : getDistanceStepsBetween (castGuardPhase w attacker ad tgt).2.2 attacker
      (castGuardPhase w attacker ad tgt).1 = some d)
    (hd : ¬ d > ad.rangeSteps)
    (hlos : ¬ (ad.tags.contains "line-of-sight" ∧
      (alookup (castGuardPhase w attacker ad tgt).2.2.cover
        (castGuardPhase w attacker ad tgt).1).getD "none" = "total"))
    (hsp : (spend_mp (castGuardPhase w attacker ad tgt).2.2 attacker
      (castEffSpent (castGuardPhase w attacker ad tgt).2.2 attacker ad mpSpent)).1 = true)
    (hsucc : attackRunCheckOrContest
      (spend_mp (castGuardPhase w attacker ad tgt).2.2 attacker
        (castEffSpent (castGuardPhase w attacker ad tgt).2.2 attacker ad mpSpent)).2
      attacker (castGuardPhase w attacker ad tgt).1 ad.castSkill ad.resist none
      rolls.atkRoll rolls.defRoll = true) :
    ((¬ ad.damage = "" ∧
      artExprInvalid (replaceArtTokens (castPostPaymentWorld w attacker ad tgt mpSpent)
        attacker ad.damage) = true) →
      (cast_arts w attacker art (some tgt) mpSpent rolls).ok = false ∧
      (cast_arts w attacker art (some tgt) mpSpent rolls).errorType
        = some "art_damage_expr_invalid" ∧
      (cast_arts w attacker art (some tgt) mpSpent rolls).world =
        castPostPaymentWorld w attacker ad tgt mpSpent) ∧
    ((¬ (¬ ad.damage = "" ∧
        artExprInvalid (replaceArtTokens (castPostPaymentWorld w attacker ad tgt mpSpent)
          attacker ad.damage) = true) ∧
      ¬ ad.heal = "" ∧
      artExprInvalid (replaceArtTokens (castHealInputWorld w attacker ad tgt mpSpent rolls)
        attacker ad.heal) = true) →
      (cast_arts w attacker art (some tgt) mpSpent rolls).ok = false ∧
      (cast_arts w attacker art (some tgt) mpSpent rolls).errorType
        = some "art_heal_expr_invalid" ∧
      (cast_arts w attacker art (some tgt) mpSpent rolls).world =
        castHealInputWorld w attacker ad tgt mpSpent rolls) ∧
    ((¬ (¬ ad.damage = "" ∧
        artExprInvalid (replaceArtTokens (castPostPaymentWorld w attacker ad tgt mpSpent)
          attacker ad.damage) = true) ∧
      ¬ (¬ ad.heal = "" ∧
        artExprInvalid (replaceArtTokens (castHealInputWorld w attacker ad tgt mpSpent rolls)
          attacker ad.heal) = true) ∧
      ¬ ad.controlEffect = "" ∧
      durExprInvalid (replaceArtTokens (castControlInputWorld w attacker ad tgt mpSpent rolls)
        attacker (if ad.controlDuration = "" then "1" else ad.controlDuration)) = true) →
      (cast_arts w attacker art (some tgt) mpSpent rolls).ok = false ∧
      (cast_arts w attacker art (some tgt) mpSpent rolls).errorType
        = some "art_duration_expr_invalid" ∧
      (cast_arts w attacker art (some tgt) mpSpent rolls).world =
        castControlInputWorld w attacker ad tgt mpSpent rolls) := by
  unfold castControlInputWorld castHealInputWorld castPostPaymentWorld
  unfold cast_arts
  dsimp only
  rw [if_neg hblock]
  simp only [if_neg htgt]
  rw [if_neg hpart1]
  simp only [Option.map_some', Option.getD_some]
  rw [if_neg hpart2, had]
  dsimp only
  rw [if_neg hcs]
  rw [hdist]
  dsimp only
  rw [if_neg hd, if_neg hlos]
  unfold castPayAndResolve
  dsimp only
  rw [hsp, if_neg (by simp)]
  refine ⟨?_, ?_, ?_⟩
  · rintro ⟨h1, h2⟩
    exact castResolve_dmg_err _ _ _ _ _ _ _ _ _ hsucc h1 h2
  · rintro ⟨h0, h3, h4⟩
    rw [castResolve_to_heal _ _ _ _ _ _ _ _ _ hsucc h0]
    exact castHealPhase_expr_err _ _ _ _ _ _ _ _ _ h3 h4
  · rintro ⟨h0, hh, h4, h5⟩
    rw [castResolve_to_heal _ _ _ _ _ _ _ _ _ hsucc h0,
      castHealPhase_to_control _ _ _ _ _ _ _ _ _ hh]
    exact castControlPhase_dur_err _ _ _ _ _ _ _ _ h4 h5

/-- An art with a valid damage formula and a heal formula that keeps the
unsupported token `POW` after substitution. -/
def healInvalidArtDef : ArtDef :=
  { castSkill := "Arts_Offense", resist := "Arts_Resist", rangeSteps := 5, mpCost := 2,
    damage := "1d6", heal := "1d3+POW" }

/-- An art with a valid damage formula, no heal, and a control effect whose
duration formula keeps the unsupported token `POW` after substitution. -/
def durInvalidArtDef : ArtDef :=
  { castSkill := "Arts_Offense", resist := "Arts_Resist", rangeSteps := 5, mpCost := 2,
    damage := "1d6", controlEffect := "rooted", controlDuration := "POW+1" }

/-- Demo world for the invalid-heal-formula cast. -/
def healInvalidDemoWorld : World :=
  { characters := [("C", { hp := 10, maxHp := 10, mp := some 5 }),
                   ("T", { hp := 10, maxHp := 10 })],
    positions := [("C", (0, 0)), ("T", (1, 0))],
    artsDefs := [("mend", healInvalidArtDef)] }

/-- Demo world for the invalid-duration-formula cast. -/
def durInvalidDemoWorld : World :=
  { characters := [("C", { hp := 10, maxHp := 10, mp := some 5 }),
                   ("T", { hp := 10, maxHp := 10 })],
    positions := [("C", (0, 0)), ("T", (1, 0))],
    artsDefs := [("bind", durInvalidArtDef)] }

/-- Attack roll 1 / defense roll 100 (the caster wins the contest) and a
rolled damage total of 4, so the damage block mutates the target before the
later formula failure. -/
def castEffectDemoRolls : CastRolls := { atkRoll := 1, defRoll := 100, dmgTotal := 4 }

/-- Concrete runs of the amended C6 theorem on all three branches: a damage
formula failure returns the post-payment world (MP 5 drops to 3), and heal /
duration formula failures keep the 4 damage already applied to the target
(hp 10 drops to 6) while returning their respective errors. -/
theorem cast_arts_invalid_expr_amended_witness :
    ((cast_arts castInvalidDemoWorld "C" "zap" (some "T") none castInvalidDemoRolls).errorType
      = some "art_damage_expr_invalid" ∧
     (charOf (cast_arts castInvalidDemoWorld "C" "zap" (some "T") none
       castInvalidDemoRolls).world "C").mp = some 3) ∧
    ((cast_arts healInvalidDemoWorld "C" "mend" (some "T") none castEffectDemoRolls).errorType
      = some "art_heal_expr_invalid" ∧
     (charOf (cast_arts healInvalidDemoWorld "C" "mend" (some "T") none
       castEffectDemoRolls).world "T").hp = 6) ∧
    ((cast_arts durInvalidDemoWorld "C" "bind" (some "T") none castEffectDemoRolls).errorType
      = some "art_duration_expr_invalid" ∧
     (charOf (cast_arts durInvalidDemoWorld "C" "bind" (some "T") none
       castEffectDemoRolls).world "T").hp = 6) := by
  have hA := cast_arts_invalid_expr_amended castInvalidDemoWorld "C" "zap" "T" none
    castInvalidDemoRolls castInvalidArtDef 1 (by decide) (by decide) (by decide) (by decide)
    (by decide) (by decide) (by decide) (by decide) (by decide) (by decide) (by decide)
  have hB := cast_arts_invalid_expr_amended healInvalidDemoWorld "C" "mend" "T" none
    castEffectDemoRolls healInvalidArtDef 1 (by decide) (by decide) (by decide) (by decide)
    (by decide) (by decide) (by decide) (by decide) (by decide) (by decide) (by decide)
  have hC := cast_arts_invalid_expr_amended durInvalidDemoWorld "C" "bind" "T" none
    castEffectDemoRolls durInvalidArtDef 1 (by decide) (by decide) (by decide) (by decide)
    (by decide) (by decide) (by decide) (by decide) (by decide) (by decide) (by decide)
  obtain ⟨_, ha2, ha3⟩ := hA.1 (by decide)
  obtain ⟨_, hb2, hb3⟩ := hB.2.1 (by decide)
  obtain ⟨_, hc2, hc3⟩ := hC.2.2 (by decide)
  exact ⟨⟨ha2, by rw [ha3]; decide⟩, ⟨hb2, by rw [hb3]; decide⟩, ⟨hc2, by rw [hc3]; decide⟩⟩

end RR
